import Mathlib

/-!
# SFML-Area: pan / zoom viewport (`Area/main.cpp`)

A shallow embedding of the view state kept in the global `context` struct of
`main.cpp`, of its mutators (`moveOrigin`, `setScale`, `resetView`,
`dispatchEvent`), of the view transform (`adjustOrigin`) and of the draw
sequence issued by one iteration of `mainLoop`.

Conventions of the embedding:

* C++ `float` values are rationals (`ℚ`).  The pan arithmetic is exact on the values
  `main` stores (step 10, canvas 5000) and is modelled without rounding, as are
  `setScale`, `resetView` and the transform.  `setScaleF32` is `setScale` with the
  binary32 rounding of every `float` operation; the statements about sequences of
  zoom calls are made on it.
* `int` arguments are `Int`; `direction & b` is `Int.land direction b`.
* `Vector2u` components (window size, event size) are `Nat`; they are cast to
  `ℚ` where the source converts them to `float`.
* The global `context` is passed explicitly: every mutator is a function
  `Context → Context`.  Output on `std::cout` is not part of the state.
-/

namespace Area

/-! ## Library value types -/

/-- The `sf::Vector2f` pair of floats. -/
structure Vector2f where
  x : ℚ
  y : ℚ
deriving DecidableEq

/-- The `sf::Vector2u` pair of unsigned integers. -/
structure Vector2u where
  x : Nat
  y : Nat
deriving DecidableEq

/-- The `sf::Vector2i` pair of integers. -/
structure Vector2i where
  x : Int
  y : Int
deriving DecidableEq

/-- The `sf::Color` RGBA value. -/
structure Color where
  r : Nat
  g : Nat
  b : Nat
  a : Nat
deriving DecidableEq

/-- The constant `Color::Black`. -/
def Color.Black : Color := ⟨0, 0, 0, 255⟩
/-- The constant `Color::White`. -/
def Color.White : Color := ⟨255, 255, 255, 255⟩
/-- The constant `Color::Red`. -/
def Color.Red : Color := ⟨255, 0, 0, 255⟩
/-- The constant `Color::Green`. -/
def Color.Green : Color := ⟨0, 255, 0, 255⟩

/-- The `sf::FloatRect` rectangle. -/
structure FloatRect where
  left : ℚ
  top : ℚ
  width : ℚ
  height : ℚ
deriving DecidableEq

/-- Modelled from the spec: `sf::Transform` is a library type that is not part of
the repository; it is an affine map kept as a 3x3 matrix (rows `a0_`, `a1_`,
`a2_`), composed by matrix right-multiplication. -/
structure Transform where
  a00 : ℚ
  a01 : ℚ
  a02 : ℚ
  a10 : ℚ
  a11 : ℚ
  a12 : ℚ
  a20 : ℚ
  a21 : ℚ
  a22 : ℚ
deriving DecidableEq

namespace Transform

/-- Modelled from the spec: `Transform::Identity`, the identity matrix. -/
def Identity : Transform := ⟨1, 0, 0, 0, 1, 0, 0, 0, 1⟩

/-- Modelled from the spec: `Transform::combine`, which replaces `this` by the
matrix product `this * other`. -/
def combine (t o : Transform) : Transform :=
  { a00 := t.a00 * o.a00 + t.a01 * o.a10 + t.a02 * o.a20
    a01 := t.a00 * o.a01 + t.a01 * o.a11 + t.a02 * o.a21
    a02 := t.a00 * o.a02 + t.a01 * o.a12 + t.a02 * o.a22
    a10 := t.a10 * o.a00 + t.a11 * o.a10 + t.a12 * o.a20
    a11 := t.a10 * o.a01 + t.a11 * o.a11 + t.a12 * o.a21
    a12 := t.a10 * o.a02 + t.a11 * o.a12 + t.a12 * o.a22
    a20 := t.a20 * o.a00 + t.a21 * o.a10 + t.a22 * o.a20
    a21 := t.a20 * o.a01 + t.a21 * o.a11 + t.a22 * o.a21
    a22 := t.a20 * o.a02 + t.a21 * o.a12 + t.a22 * o.a22 }

/-- Modelled from the spec: `Transform::translate(x, y)`, which combines `this`
with the translation matrix. -/
def translate (t : Transform) (x y : ℚ) : Transform :=
  t.combine ⟨1, 0, x, 0, 1, y, 0, 0, 1⟩

/-- Modelled from the spec: `Transform::scale(sx, sy)`, which combines `this`
with the scaling matrix. -/
def scale (t : Transform) (sx sy : ℚ) : Transform :=
  t.combine ⟨sx, 0, 0, 0, sy, 0, 0, 0, 1⟩

/-- Modelled from the spec: `Transform::transformPoint`, the image of a 2D point
under the affine map. -/
def transformPoint (t : Transform) (p : Vector2f) : Vector2f :=
  ⟨t.a00 * p.x + t.a01 * p.y + t.a02, t.a10 * p.x + t.a11 * p.y + t.a12⟩

end Transform

/-! ## The program state -/

/-- The part of `sf::RenderWindow` the program reads and writes: the size
returned by `getSize()`, the open flag and the current view rectangle. -/
structure RenderWindow where
  size : Vector2u
  isOpen : Bool
  view : FloatRect
deriving DecidableEq

/-- The global `context` struct.  `size` is the canvas size; the viewport size is
`window.size`.  The handles `videoMode`, `settings` and `font` hold no data that
the functions below read and are left out. -/
structure Context where
  window : RenderWindow
  backgroundColor : Color
  origin : Vector2f
  size : Vector2f
  scale : ℚ
  originStep : ℚ
  scaleStep : ℚ
  maxFps : ℚ
  vSync : Bool
  overlay : Bool
  originWindowBox : Bool
deriving DecidableEq

/-! ## View-state mutators -/

/-- The function `moveOrigin(int direction)`: four guarded steps, executed in the
order left, top, right, down. -/
def moveOrigin (direction : Int) (c : Context) : Context :=
  let c1 :=
    if Int.land direction 1 ≠ 0 then
      if c.size.x - (c.window.size.x : ℚ) > c.origin.x then
        { c with origin := { c.origin with x := c.origin.x + c.originStep } }
      else c
    else c
  let c2 :=
    if Int.land direction 2 ≠ 0 then
      if c1.size.y - (c1.window.size.y : ℚ) > c1.origin.y then
        { c1 with origin := { c1.origin with y := c1.origin.y + c1.originStep } }
      else c1
    else c1
  let c3 :=
    if Int.land direction 4 ≠ 0 then
      if c2.origin.x > 0 then
        { c2 with origin := { c2.origin with x := c2.origin.x - c2.originStep } }
      else c2
    else c2
  if Int.land direction 8 ≠ 0 then
    if c3.origin.y > 0 then
      { c3 with origin := { c3.origin with y := c3.origin.y - c3.originStep } }
    else c3
  else c3

/-- The function `setScale(int mod)`, rounding left out. -/
def setScale (mod : Int) (c : Context) : Context :=
  let delta : ℚ := (mod : ℚ) * c.scaleStep
  let newScale : ℚ := c.scale + delta
  let newScale : ℚ := if newScale ≤ 1 / 10 then 1 / 10 else newScale
  let newScale : ℚ := if newScale ≥ 4 then 4 else newScale
  { c with scale := newScale }

/-- The function `resetView(bool resetScale, bool resetOrigin)`. -/
def resetView (resetScale resetOrigin : Bool) (c : Context) : Context :=
  let c1 := if resetScale then { c with scale := 1 } else c
  if resetOrigin then
    { c1 with origin := { x := 0, y := 0 } }
  else c1

/-! ## Binary32 arithmetic

`setScale` is the one mutator whose `float` results are not exact with the values
`main` stores (`scaleStep` is the binary32 value of `0.1`); `setScaleF32` is the
same function with the rounding of every `float` operation made explicit. -/

/-- Round to the nearest integer, ties to even. -/
def roundHalfEven (x : ℚ) : Int :=
  if x - (⌊x⌋ : ℚ) < 1 / 2 then ⌊x⌋
  else if 1 / 2 < x - (⌊x⌋ : ℚ) then ⌊x⌋ + 1
  else if ⌊x⌋ % 2 = 0 then ⌊x⌋ else ⌊x⌋ + 1

/-- The spacing of binary32 numbers around the magnitude `x`: `2 ^ (e - 23)` with
`e` the binary exponent of `x`, not below the subnormal exponent `-126`. -/
def ulpF32 (x : ℚ) : ℚ := (2 : ℚ) ^ (max (Int.log 2 x) (-126) - 23)

/-- The binary32 number nearest to the magnitude `x ≥ 0`, ties to even. -/
def roundMagF32 (x : ℚ) : ℚ := (roundHalfEven (x / ulpF32 x) : ℚ) * ulpF32 x

/-- The binary32 number nearest to `x`, ties to even (IEEE 754 round-to-nearest on
sign and magnitude, 24-bit significand): the value a `float` operation stores for
the exact result `x`.  The exponent is not bounded above, so a result past the
largest finite binary32 number stays a large rational; `setScale` only compares
such a value with `0.1` and `4`, where it decides as an infinity does. -/
def roundF32 (x : ℚ) : ℚ := if 0 ≤ x then roundMagF32 x else -roundMagF32 (-x)

/-- The binary64 value of the literal `0.1`. -/
def doubleTenth : ℚ := 3602879701896397 / 36028797018963968

/-- The binary32 value of the literal `0.1`, as stored in a `float`. -/
def floatTenth : ℚ := 13421773 / 134217728

/-- The function `setScale(int mod)` in binary32 arithmetic: the conversion of
`mod`, the product, the sum and the store of the literal `0.1` are rounded to
`float`; the comparison `newScale <= 0.1` is made against the `double` literal. -/
def setScaleF32 (mod : Int) (c : Context) : Context :=
  let delta : ℚ := roundF32 (roundF32 (mod : ℚ) * c.scaleStep)
  let newScale : ℚ := roundF32 (c.scale + delta)
  let newScale : ℚ := if newScale ≤ doubleTenth then roundF32 doubleTenth else newScale
  let newScale : ℚ := if newScale ≥ 4 then 4 else newScale
  { c with scale := newScale }

/-! ## Events and the dispatch table -/

/-- Modelled from the spec: the key codes carried by a key event.  The enumeration
`sf::Keyboard::Key` is declared by the library, outside the repository; the
constructors follow its header. -/
inductive Key where
  | Unknown
  | A | B | C | D | E | F | G | H | I | J | K | L | M
  | N | O | P | Q | R | S | T | U | V | W | X | Y | Z
  | Num0 | Num1 | Num2 | Num3 | Num4 | Num5 | Num6 | Num7 | Num8 | Num9
  | Escape | LControl | LShift | LAlt | LSystem | RControl | RShift | RAlt | RSystem
  | Menu | LBracket | RBracket | Semicolon | Comma | Period | Quote | Slash
  | Backslash | Tilde | Equal | Hyphen | Space | Enter | Backspace | Tab
  | PageUp | PageDown | End | Home | Insert | Delete
  | Add | Subtract | Multiply | Divide
  | Left | Right | Up | Down
  | Numpad0 | Numpad1 | Numpad2 | Numpad3 | Numpad4
  | Numpad5 | Numpad6 | Numpad7 | Numpad8 | Numpad9
  | F1 | F2 | F3 | F4 | F5 | F6 | F7 | F8 | F9 | F10 | F11 | F12 | F13 | F14 | F15
  | Pause
deriving DecidableEq

/-- Modelled from the spec: the tagged union `sf::Event`, which is not part of the
repository.  Only the payloads the program reads are kept (`size` of a resize,
`key.code` of a key event). -/
inductive Event where
  | Closed
  | Resized (width height : Nat)
  | LostFocus
  | GainedFocus
  | TextEntered
  | KeyPressed (code : Key)
  | KeyReleased (code : Key)
  | MouseWheelScrolled
  | MouseButtonPressed
  | MouseButtonReleased
  | MouseMoved
  | MouseEntered
  | MouseLeft
  | Other
deriving DecidableEq

/-- The function `dispatchEvent(Event &event)`. -/
def dispatchEvent (event : Event) (c : Context) : Context :=
  match event with
  | Event.KeyPressed code =>
    match code with
    | Key.Right => moveOrigin 4 c
    | Key.Left => moveOrigin 1 c
    | Key.Up => moveOrigin 2 c
    | Key.Down => moveOrigin 8 c
    | Key.Add => setScale 1 c
    | Key.PageUp => setScale 1 c
    | Key.Subtract => setScale (-1) c
    | Key.PageDown => setScale (-1) c
    | Key.O => { c with overlay := !c.overlay }
    | Key.B => { c with originWindowBox := !c.originWindowBox }
    | Key.R => resetView true true c
    | _ => c
  | _ => c

/-! ## The view transform and the frame -/

/-- The function `adjustOrigin(window, origin, scale)`; the window argument is not
read. -/
def adjustOrigin (origin : Vector2f) (scale : ℚ) : Transform :=
  let trf := Transform.Identity
  let trf := trf.translate origin.x origin.y
  let trf := trf.scale scale scale
  trf

/-- The `sf::Vertex` value: a position and a colour. -/
structure Vertex where
  position : Vector2f
  color : Color
deriving DecidableEq

/-- One item pushed on the `std::ostringstream` that builds an overlay line. -/
inductive StreamItem where
  | str (s : String)
  | num (q : ℚ)
deriving DecidableEq

/-- One call of `window->draw(...)`, with the render-state transform it is given
(`Transform.Identity` when the call passes none). -/
inductive DrawCmd where
  | rectangle (size position : Vector2f) (fill : Color) (transform : Transform)
  | circle (radius : ℚ) (position : Vector2f) (fill : Color) (transform : Transform)
  | lineStrip (vertices : List Vertex) (transform : Transform)
  | text (content : List StreamItem) (characterSize : Nat) (fill : Color)
      (position : Vector2f) (transform : Transform)
deriving DecidableEq

/-- Whether a draw call draws a `sf::Text`. -/
def DrawCmd.isText : DrawCmd → Bool
  | DrawCmd.text _ _ _ _ _ => true
  | _ => false

/-- The function `drawBackground(win)`. -/
def drawBackground (c : Context) : List DrawCmd :=
  [DrawCmd.rectangle ⟨(c.window.size.x : ℚ), (c.window.size.y : ℚ)⟩ ⟨0, 0⟩
    c.backgroundColor Transform.Identity]

/-- The function `drawForeground(window, transform)`. -/
def drawForeground (transform : Transform) : List DrawCmd :=
  [DrawCmd.circle 20 ⟨0, 0⟩ Color.Red transform]

/-- The function `drawOriginWindowBox(window, transform)`. -/
def drawOriginWindowBox (c : Context) (transform : Transform) : List DrawCmd :=
  let verteces : List Vertex :=
    [ ⟨⟨0, 0⟩, Color.Green⟩,
      ⟨⟨(c.window.size.x : ℚ), 0⟩, Color.Green⟩,
      ⟨⟨(c.window.size.x : ℚ), (c.window.size.y : ℚ)⟩, Color.Green⟩,
      ⟨⟨0, (c.window.size.y : ℚ)⟩, Color.Green⟩,
      ⟨⟨0, 0⟩, Color.Green⟩ ]
  [DrawCmd.lineStrip verteces transform]

/-- The function `drawOverlay(win)`; `mouse` is the value of
`Mouse::getPosition(*win)`. -/
def drawOverlay (c : Context) (mouse : Vector2i) : List DrawCmd :=
  let originText : List StreamItem :=
    [StreamItem.str "originX: ", StreamItem.num c.origin.x,
     StreamItem.str " originY: ", StreamItem.num c.origin.y]
  let scaleText : List StreamItem :=
    [StreamItem.str "scale: ", StreamItem.num c.scale]
  let mouseText : List StreamItem :=
    [StreamItem.str "mouseX: ", StreamItem.num ((mouse.x : ℚ) - c.origin.x),
     StreamItem.str " mouseY: ", StreamItem.num ((mouse.y : ℚ) - c.origin.y)]
  [ DrawCmd.text originText 12 Color.White ⟨1, 0 * 12⟩ Transform.Identity,
    DrawCmd.text scaleText 12 Color.White ⟨1, 1 * 12⟩ Transform.Identity,
    DrawCmd.text mouseText 12 Color.White ⟨1, 2 * 12⟩ Transform.Identity ]

/-- The draw calls between `win->clear()` and `win->display()` in `mainLoop`. -/
def renderFrame (c : Context) (mouse : Vector2i) : List DrawCmd :=
  let transform := adjustOrigin c.origin c.scale
  drawBackground c
    ++ (if c.originWindowBox then drawOriginWindowBox c transform else [])
    ++ drawForeground transform
    ++ (if c.overlay then drawOverlay c mouse else [])

/-- Modelled from the spec: the effect of the library call `pollEvent` on the
window when it returns `event`: a resize event carries the new size of the
window, which `getSize()` returns from then on. -/
def pollEvent (event : Event) (c : Context) : Context :=
  match event with
  | Event.Resized width height =>
    { c with window := { c.window with size := ⟨width, height⟩ } }
  | _ => c

/-- The body of the inner `while (win->pollEvent(event))` loop of `mainLoop`,
applied to one polled event. -/
def handleEvent (event : Event) (c : Context) : Context :=
  let c0 := pollEvent event c
  let c1 :=
    match event with
    | Event.Closed => { c0 with window := { c0.window with isOpen := false } }
    | _ => c0
  let c2 :=
    match event with
    | Event.Resized width height =>
      { c1 with window := { c1.window with view := ⟨0, 0, (width : ℚ), (height : ℚ)⟩ } }
    | _ => c1
  dispatchEvent event c2

/-- The state set up by `main` before it enters `mainLoop`; `scaleStep` holds the
binary32 value of the literal `0.1`, the other numbers are exact in binary32. -/
def initialContext : Context :=
  { window := { size := ⟨800, 600⟩, isOpen := true, view := ⟨0, 0, 800, 600⟩ }
    backgroundColor := Color.Black
    origin := ⟨0, 0⟩
    size := ⟨5000, 5000⟩
    scale := 1
    originStep := 10
    scaleStep := floatTenth
    maxFps := 60
    vSync := true
    overlay := true
    originWindowBox := false }

/-! ## Statement vocabulary -/

/-- The largest in-range origin along x: `max(0, canvasSize.w - viewportSize.w)`. -/
def maxOriginX (c : Context) : ℚ := max 0 (c.size.x - (c.window.size.x : ℚ))

/-- The largest in-range origin along y: `max(0, canvasSize.h - viewportSize.h)`. -/
def maxOriginY (c : Context) : ℚ := max 0 (c.size.y - (c.window.size.y : ℚ))

/-- The origin range invariant of the data model. -/
def originInRange (c : Context) : Prop :=
  0 ≤ c.origin.x ∧ c.origin.x ≤ maxOriginX c ∧ 0 ≤ c.origin.y ∧ c.origin.y ≤ maxOriginY c

/-! ## Auxiliary definitions used by the statements -/

/-- The `left` block of `moveOrigin` on its own. -/
def panLeft (c : Context) : Context :=
  if c.size.x - (c.window.size.x : ℚ) > c.origin.x then
    { c with origin := { c.origin with x := c.origin.x + c.originStep } }
  else c

/-- The `top` block of `moveOrigin` on its own. -/
def panTop (c : Context) : Context :=
  if c.size.y - (c.window.size.y : ℚ) > c.origin.y then
    { c with origin := { c.origin with y := c.origin.y + c.originStep } }
  else c

/-- The `right` block of `moveOrigin` on its own. -/
def panRight (c : Context) : Context :=
  if c.origin.x > 0 then
    { c with origin := { c.origin with x := c.origin.x - c.originStep } }
  else c

/-- The `down` block of `moveOrigin` on its own. -/
def panDown (c : Context) : Context :=
  if c.origin.y > 0 then
    { c with origin := { c.origin with y := c.origin.y - c.originStep } }
  else c

/-- The single directions `LEFT = 1, TOP = 2, RIGHT = 4, DOWN = 8` whose bit is set
in `mask`. -/
def activeDirections (mask : Int) : List Int :=
  [1, 2, 4, 8].filter (fun d => decide (Int.land mask d ≠ 0))

/-- Apply `moveOrigin` once per element of `ds`, first element first. -/
def moveOriginEach (ds : List Int) (c : Context) : Context :=
  ds.foldl (fun s d => moveOrigin d s) c

/-- The origin and both canvas-minus-viewport extents are integer multiples of
`originStep`. -/
def gridAligned (c : Context) : Prop :=
  (∃ i : Int, c.origin.x = (i : ℚ) * c.originStep) ∧
  (∃ j : Int, c.origin.y = (j : ℚ) * c.originStep) ∧
  (∃ k : Int, c.size.x - (c.window.size.x : ℚ) = (k : ℚ) * c.originStep) ∧
  (∃ l : Int, c.size.y - (c.window.size.y : ℚ) = (l : ℚ) * c.originStep)

/-- Apply `f` to the state when `p` holds: one `if (direction & bit)` block. -/
def applyWhen (p : Prop) [Decidable p] (f : Context → Context) (c : Context) : Context :=
  if p then f c else c

/-- Apply `f` to a coordinate when `p` holds. -/
def coordWhen (p : Prop) [Decidable p] (f : ℚ → ℚ) (x : ℚ) : ℚ :=
  if p then f x else x

/-- The guarded increment of the `left` and `top` blocks on one coordinate: add `s`
when `lim > x`. -/
def stepUp (lim s x : ℚ) : ℚ := if lim > x then x + s else x

/-- The guarded decrement of the `right` and `down` blocks on one coordinate:
subtract `s` when `x > 0`. -/
def stepDown (s x : ℚ) : ℚ := if x > 0 then x - s else x

/-- The origin is less than one step outside `[0, canvasSize - viewportSize]` on
both axes. -/
def overshootBound (c : Context) : Prop :=
  -c.originStep < c.origin.x ∧
  c.origin.x < (c.size.x - (c.window.size.x : ℚ)) + c.originStep ∧
  -c.originStep < c.origin.y ∧
  c.origin.y < (c.size.y - (c.window.size.y : ℚ)) + c.originStep

/-- The start state after a resize to 805x600 and 419 pans to the left. -/
def offGridContext : Context :=
  { initialContext with
    window := { initialContext.window with size := ⟨805, 600⟩ }
    origin := ⟨4190, 0⟩ }

/-- Whether a single direction moves along x (`LEFT = 1` or `RIGHT = 4`). -/
def onXAxis (d : Int) : Bool := decide (d = 1 ∨ d = 4)

/-- Whether a single direction moves along y (`TOP = 2` or `DOWN = 8`). -/
def onYAxis (d : Int) : Bool := decide (d = 2 ∨ d = 8)

/-- Apply `setScaleF32` once per element of `ms`, first element first. -/
def setScaleF32Each (ms : List Int) (c : Context) : Context :=
  ms.foldl (fun s m => setScaleF32 m s) c

/-- One `setScale(+1)` call on the scale alone, in binary32 arithmetic. -/
def zoomInF32 (step x : ℚ) : ℚ := min (roundF32 (x + step)) 4

/-- One `setScale(-1)` call on the scale alone, in binary32 arithmetic. -/
def zoomOutF32 (step x : ℚ) : ℚ := max (roundF32 (x - step)) floatTenth

/-- The scale is a binary32 number in `[0.1, 4.0]`. -/
def scaleInRangeF32 (c : Context) : Prop :=
  roundF32 c.scale = c.scale ∧ 1 / 10 ≤ c.scale ∧ c.scale ≤ 4

/-! ## Theorems -/

/-! ### Structure of `moveOrigin` -/

theorem moveOrigin_eq (d : Int) (c : Context) :
    moveOrigin d c =
      applyWhen (Int.land d 8 ≠ 0) panDown
        (applyWhen (Int.land d 4 ≠ 0) panRight
          (applyWhen (Int.land d 2 ≠ 0) panTop
            (applyWhen (Int.land d 1 ≠ 0) panLeft c))) := rfl

theorem panLeft_eq (c : Context) :
    panLeft c = { c with origin :=
      ⟨stepUp (c.size.x - (c.window.size.x : ℚ)) c.originStep c.origin.x, c.origin.y⟩ } := by
  unfold panLeft stepUp
  split_ifs <;> rfl

theorem panTop_eq (c : Context) :
    panTop c = { c with origin :=
      ⟨c.origin.x, stepUp (c.size.y - (c.window.size.y : ℚ)) c.originStep c.origin.y⟩ } := by
  unfold panTop stepUp
  split_ifs <;> rfl

theorem panRight_eq (c : Context) :
    panRight c = { c with origin := ⟨stepDown c.originStep c.origin.x, c.origin.y⟩ } := by
  unfold panRight stepDown
  split_ifs <;> rfl

theorem panDown_eq (c : Context) :
    panDown c = { c with origin := ⟨c.origin.x, stepDown c.originStep c.origin.y⟩ } := by
  unfold panDown stepDown
  split_ifs <;> rfl

/-- The whole effect of `moveOrigin`: only `origin` changes, and each coordinate
goes through its own guarded increment followed by its own guarded decrement. -/
theorem moveOrigin_origin (d : Int) (c : Context) :
    moveOrigin d c = { c with origin :=
      ⟨coordWhen (Int.land d 4 ≠ 0) (stepDown c.originStep)
        (coordWhen (Int.land d 1 ≠ 0)
          (stepUp (c.size.x - (c.window.size.x : ℚ)) c.originStep) c.origin.x),
       coordWhen (Int.land d 8 ≠ 0) (stepDown c.originStep)
        (coordWhen (Int.land d 2 ≠ 0)
          (stepUp (c.size.y - (c.window.size.y : ℚ)) c.originStep) c.origin.y)⟩ } := by
  rw [moveOrigin_eq]
  by_cases h1 : Int.land d 1 = 0 <;> by_cases h2 : Int.land d 2 = 0 <;>
    by_cases h4 : Int.land d 4 = 0 <;> by_cases h8 : Int.land d 8 = 0 <;>
    simp only [applyWhen, coordWhen, ne_eq, h1, h2, h4, h8, not_true_eq_false,
      not_false_eq_true, if_true, if_false,
      panLeft_eq, panTop_eq, panRight_eq, panDown_eq]

theorem moveOrigin_originStep (d : Int) (c : Context) :
    (moveOrigin d c).originStep = c.originStep := by rw [moveOrigin_origin]

theorem moveOrigin_size (d : Int) (c : Context) :
    (moveOrigin d c).size = c.size := by rw [moveOrigin_origin]

theorem moveOrigin_window (d : Int) (c : Context) :
    (moveOrigin d c).window = c.window := by rw [moveOrigin_origin]

theorem moveOrigin_scale (d : Int) (c : Context) :
    (moveOrigin d c).scale = c.scale := by rw [moveOrigin_origin]

theorem moveOrigin_origin_x (d : Int) (c : Context) :
    (moveOrigin d c).origin.x =
      coordWhen (Int.land d 4 ≠ 0) (stepDown c.originStep)
        (coordWhen (Int.land d 1 ≠ 0)
          (stepUp (c.size.x - (c.window.size.x : ℚ)) c.originStep) c.origin.x) := by
  rw [moveOrigin_origin]

theorem moveOrigin_origin_y (d : Int) (c : Context) :
    (moveOrigin d c).origin.y =
      coordWhen (Int.land d 8 ≠ 0) (stepDown c.originStep)
        (coordWhen (Int.land d 2 ≠ 0)
          (stepUp (c.size.y - (c.window.size.y : ℚ)) c.originStep) c.origin.y) := by
  rw [moveOrigin_origin]

/-! ### One coordinate: bounds kept by the guarded steps -/

theorem coord_lower (p q : Prop) [Decidable p] [Decidable q] (lim s x : ℚ) (hs : 0 < s)
    (hx : -s < x) :
    -s < coordWhen q (stepDown s) (coordWhen p (stepUp lim s) x) := by
  unfold coordWhen stepDown stepUp
  split_ifs <;> linarith

theorem coord_upper (p q : Prop) [Decidable p] [Decidable q] (lim s x : ℚ) (hs : 0 < s)
    (hx : x < lim + s) :
    coordWhen q (stepDown s) (coordWhen p (stepUp lim s) x) < lim + s := by
  unfold coordWhen stepDown stepUp
  split_ifs <;> linarith

theorem overshootBound_moveOrigin (d : Int) (c : Context) (hs : 0 < c.originStep)
    (hb : overshootBound c) : overshootBound (moveOrigin d c) := by
  obtain ⟨h1, h2, h3, h4⟩ := hb
  unfold overshootBound
  rw [moveOrigin_origin_x, moveOrigin_origin_y, moveOrigin_originStep, moveOrigin_size,
    moveOrigin_window]
  exact ⟨coord_lower _ _ _ _ _ hs h1, coord_upper _ _ _ _ _ hs h2,
    coord_lower _ _ _ _ _ hs h3, coord_upper _ _ _ _ _ hs h4⟩

theorem moveOriginEach_frame (ds : List Int) (c : Context) :
    (moveOriginEach ds c).originStep = c.originStep ∧
    (moveOriginEach ds c).size = c.size ∧
    (moveOriginEach ds c).window = c.window := by
  induction ds generalizing c with
  | nil => exact ⟨rfl, rfl, rfl⟩
  | cons d t ih =>
    have h := ih (moveOrigin d c)
    rw [moveOrigin_originStep, moveOrigin_size, moveOrigin_window] at h
    exact h

theorem overshootBound_moveOriginEach (ds : List Int) (c : Context) (hs : 0 < c.originStep)
    (hb : overshootBound c) : overshootBound (moveOriginEach ds c) := by
  induction ds generalizing c with
  | nil => exact hb
  | cons d t ih =>
    exact ih (moveOrigin d c) (by rw [moveOrigin_originStep]; exact hs)
      (overshootBound_moveOrigin d c hs hb)

/-! ### One coordinate: the range invariant on the step grid -/

theorem stepUp_grid (lim s x : ℚ) (i k : Int) (hs : 0 < s) (hx : x = (i : ℚ) * s)
    (hl : lim = (k : ℚ) * s) (h0 : 0 ≤ x) (h1 : x ≤ max 0 lim) :
    0 ≤ stepUp lim s x ∧ stepUp lim s x ≤ max 0 lim ∧ ∃ i2 : Int, stepUp lim s x = (i2 : ℚ) * s := by
  unfold stepUp
  split_ifs with h
  · refine ⟨by linarith, ?_, i + 1, by rw [hx]; push_cast; ring⟩
    rw [hx, hl] at h
    have hik : (i : ℚ) < (k : ℚ) := lt_of_mul_lt_mul_right h hs.le
    have hik2 : i + 1 ≤ k := Int.add_one_le_iff.mpr (Int.cast_lt.mp hik)
    have hik3 : ((i : ℚ) + 1) ≤ (k : ℚ) := by exact_mod_cast hik2
    have : ((i : ℚ) + 1) * s ≤ (k : ℚ) * s := mul_le_mul_of_nonneg_right hik3 hs.le
    have h4 : x + s ≤ lim := by rw [hx, hl]; linarith
    exact le_trans h4 (le_max_right _ _)
  · exact ⟨h0, h1, i, hx⟩

theorem stepDown_grid (lim s x : ℚ) (i : Int) (hs : 0 < s) (hx : x = (i : ℚ) * s)
    (h0 : 0 ≤ x) (h1 : x ≤ max 0 lim) :
    0 ≤ stepDown s x ∧ stepDown s x ≤ max 0 lim ∧ ∃ i2 : Int, stepDown s x = (i2 : ℚ) * s := by
  unfold stepDown
  split_ifs with h
  · refine ⟨?_, by linarith, i - 1, by rw [hx]; push_cast; ring⟩
    rw [hx] at h
    have hi : (0 : ℚ) < (i : ℚ) := by
      by_contra hneg
      have : (i : ℚ) * s ≤ 0 := mul_nonpos_of_nonpos_of_nonneg (not_lt.mp hneg) hs.le
      linarith
    have hi2 : (1 : Int) ≤ i := Int.add_one_le_iff.mpr (Int.cast_pos.mp hi)
    have hi3 : (1 : ℚ) ≤ (i : ℚ) := by exact_mod_cast hi2
    have : 1 * s ≤ (i : ℚ) * s := mul_le_mul_of_nonneg_right hi3 hs.le
    rw [hx]; linarith
  · exact ⟨h0, h1, i, hx⟩

theorem coord_grid (p q : Prop) [Decidable p] [Decidable q] (lim s x : ℚ) (hs : 0 < s)
    (hx : ∃ i : Int, x = (i : ℚ) * s) (hl : ∃ k : Int, lim = (k : ℚ) * s)
    (h0 : 0 ≤ x) (h1 : x ≤ max 0 lim) :
    0 ≤ coordWhen q (stepDown s) (coordWhen p (stepUp lim s) x) ∧
    coordWhen q (stepDown s) (coordWhen p (stepUp lim s) x) ≤ max 0 lim ∧
    ∃ i2 : Int, coordWhen q (stepDown s) (coordWhen p (stepUp lim s) x) = (i2 : ℚ) * s := by
  obtain ⟨i, hi⟩ := hx
  obtain ⟨k, hk⟩ := hl
  have hup : 0 ≤ coordWhen p (stepUp lim s) x ∧ coordWhen p (stepUp lim s) x ≤ max 0 lim ∧
      ∃ i2 : Int, coordWhen p (stepUp lim s) x = (i2 : ℚ) * s := by
    by_cases hp : p
    · rw [coordWhen, if_pos hp]
      exact stepUp_grid lim s x i k hs hi hk h0 h1
    · rw [coordWhen, if_neg hp]
      exact ⟨h0, h1, i, hi⟩
  obtain ⟨u0, u1, i2, hi2⟩ := hup
  by_cases hq : q
  · rw [coordWhen, if_pos hq]
    exact stepDown_grid lim s _ i2 hs hi2 u0 u1
  · rw [coordWhen, if_neg hq]
    exact ⟨u0, u1, i2, hi2⟩

/-! ### Repeated pans to the left -/

theorem moveOrigin_left (c : Context) : moveOrigin 1 c = panLeft c := by
  rw [moveOrigin_eq]
  have h8 : Int.land 1 8 = 0 := by decide
  have h4 : Int.land 1 4 = 0 := by decide
  have h2 : Int.land 1 2 = 0 := by decide
  have h1 : Int.land 1 1 ≠ 0 := by decide
  simp only [applyWhen, h8, h4, h2, h1, ne_eq, not_true_eq_false, not_false_eq_true,
    if_true, if_false]

theorem panLeft_iterate_frame (n : Nat) (c : Context) :
    (panLeft^[n] c).originStep = c.originStep ∧ (panLeft^[n] c).size = c.size ∧
    (panLeft^[n] c).window = c.window := by
  induction n with
  | zero => exact ⟨rfl, rfl, rfl⟩
  | succ m ih =>
    rw [Function.iterate_succ_apply', panLeft_eq]
    exact ih

theorem panLeft_iterate_x (n k : Nat) (c : Context)
    (hk : IsLeast {j : Nat | c.size.x - (c.window.size.x : ℚ) ≤ c.origin.x + (j : ℚ) * c.originStep} k) :
    (panLeft^[n] c).origin.x = c.origin.x + c.originStep * ((min n k : Nat) : ℚ) := by
  induction n with
  | zero => simp
  | succ m ih =>
    obtain ⟨f1, f2, f3⟩ := panLeft_iterate_frame m c
    rw [Function.iterate_succ_apply', panLeft_eq]
    simp only
    rw [f1, f2, f3, ih]
    unfold stepUp
    by_cases hmk : m < k
    · have hnot : m ∉ {j : Nat | c.size.x - (c.window.size.x : ℚ) ≤ c.origin.x + (j : ℚ) * c.originStep} :=
        fun hmem => absurd (hk.2 hmem) (not_le.mpr hmk)
      have hgt : c.size.x - (c.window.size.x : ℚ) > c.origin.x + c.originStep * (m : ℚ) := by
        have h3 : ¬ (c.size.x - (c.window.size.x : ℚ) ≤ c.origin.x + (m : ℚ) * c.originStep) := hnot
        have h4 := not_le.mp h3
        linarith
      rw [min_eq_left hmk.le, if_pos hgt, min_eq_left (Nat.succ_le_of_lt hmk)]
      push_cast
      ring
    · have hkm : k ≤ m := not_lt.mp hmk
      have hle : c.size.x - (c.window.size.x : ℚ) ≤ c.origin.x + (k : ℚ) * c.originStep := hk.1
      rw [min_eq_right hkm, min_eq_right (le_trans hkm (Nat.le_succ m)), if_neg]
      linarith

theorem panLeft_least_exists (c : Context) (hstep : 0 < c.originStep) :
    ∃ k : Nat, IsLeast {j : Nat | c.size.x - (c.window.size.x : ℚ) ≤ c.origin.x + (j : ℚ) * c.originStep} k := by
  classical
  have hex : ∃ j : Nat, c.size.x - (c.window.size.x : ℚ) ≤ c.origin.x + (j : ℚ) * c.originStep := by
    obtain ⟨j, hj⟩ := exists_nat_ge ((c.size.x - (c.window.size.x : ℚ) - c.origin.x) / c.originStep)
    refine ⟨j, ?_⟩
    have := (div_le_iff₀ hstep).mp hj
    linarith
  exact ⟨Nat.find hex, Nat.find_spec hex, fun j hj => Nat.find_min' hex hj⟩


theorem initialContext_least :
    IsLeast {j : Nat | initialContext.size.x - (initialContext.window.size.x : ℚ) ≤
      initialContext.origin.x + (j : ℚ) * initialContext.originStep} 420 := by
  constructor
  · show initialContext.size.x - (initialContext.window.size.x : ℚ) ≤
      initialContext.origin.x + ((420 : Nat) : ℚ) * initialContext.originStep
    norm_num [initialContext]
  · intro j hj
    have h : initialContext.size.x - (initialContext.window.size.x : ℚ) ≤
      initialContext.origin.x + (j : ℚ) * initialContext.originStep := hj
    norm_num [initialContext] at h
    have h2 : ((420 : Nat) : ℚ) ≤ (j : ℚ) := by
      push_cast
      linarith
    exact_mod_cast h2

/-! ### Structure of `setScale` -/

theorem moveOrigin_top (c : Context) : moveOrigin 2 c = panTop c := by
  rw [moveOrigin_eq]
  have h8 : Int.land 2 8 = 0 := by decide
  have h4 : Int.land 2 4 = 0 := by decide
  have h2 : Int.land 2 2 ≠ 0 := by decide
  have h1 : Int.land 2 1 = 0 := by decide
  simp only [applyWhen, h8, h4, h2, h1, ne_eq, not_true_eq_false, not_false_eq_true,
    if_true, if_false]

theorem moveOrigin_right (c : Context) : moveOrigin 4 c = panRight c := by
  rw [moveOrigin_eq]
  have h8 : Int.land 4 8 = 0 := by decide
  have h4 : Int.land 4 4 ≠ 0 := by decide
  have h2 : Int.land 4 2 = 0 := by decide
  have h1 : Int.land 4 1 = 0 := by decide
  simp only [applyWhen, h8, h4, h2, h1, ne_eq, not_true_eq_false, not_false_eq_true,
    if_true, if_false]

theorem moveOrigin_down (c : Context) : moveOrigin 8 c = panDown c := by
  rw [moveOrigin_eq]
  have h8 : Int.land 8 8 ≠ 0 := by decide
  have h4 : Int.land 8 4 = 0 := by decide
  have h2 : Int.land 8 2 = 0 := by decide
  have h1 : Int.land 8 1 = 0 := by decide
  simp only [applyWhen, h8, h4, h2, h1, ne_eq, not_true_eq_false, not_false_eq_true,
    if_true, if_false]

theorem moveOrigin_axes_commute (a b : Int) (ha : a = 1 ∨ a = 4) (hb : b = 2 ∨ b = 8)
    (c : Context) : moveOrigin b (moveOrigin a c) = moveOrigin a (moveOrigin b c) := by
  rcases ha with rfl | rfl <;> rcases hb with rfl | rfl <;>
    simp only [moveOrigin_left, moveOrigin_top, moveOrigin_right, moveOrigin_down,
      panLeft_eq, panTop_eq, panRight_eq, panDown_eq]

theorem moveOriginEach_cons (d : Int) (t : List Int) (c : Context) :
    moveOriginEach (d :: t) c = moveOriginEach t (moveOrigin d c) := rfl

theorem moveOriginEach_comm (xs : List Int) (b : Int) (hxs : ∀ a ∈ xs, a = 1 ∨ a = 4)
    (hb : b = 2 ∨ b = 8) (c : Context) :
    moveOriginEach xs (moveOrigin b c) = moveOrigin b (moveOriginEach xs c) := by
  induction xs generalizing c with
  | nil => rfl
  | cons a t ih =>
    rw [moveOriginEach_cons, moveOriginEach_cons,
      ← moveOrigin_axes_commute a b (hxs a (List.mem_cons_self a t)) hb,
      ih (fun x hx => hxs x (List.mem_cons_of_mem a hx))]

theorem moveOriginEach_split (ds : List Int) (hall : ∀ d ∈ ds, d = 1 ∨ d = 2 ∨ d = 4 ∨ d = 8)
    (c : Context) :
    moveOriginEach ds c =
      moveOriginEach (ds.filter onYAxis) (moveOriginEach (ds.filter onXAxis) c) := by
  induction ds generalizing c with
  | nil => rfl
  | cons d t ih =>
    have ht : ∀ x ∈ t, x = 1 ∨ x = 2 ∨ x = 4 ∨ x = 8 :=
      fun x hx => hall x (List.mem_cons_of_mem d hx)
    have hxs : ∀ a ∈ t.filter onXAxis, a = 1 ∨ a = 4 := by
      intro a ha
      have := (List.mem_filter.mp ha).2
      simpa [onXAxis] using this
    rw [moveOriginEach_cons, ih ht]
    rcases hall d (List.mem_cons_self d t) with rfl | rfl | rfl | rfl
    · have e1 : List.filter onXAxis (1 :: t) = 1 :: List.filter onXAxis t :=
        List.filter_cons_of_pos (by decide)
      have e2 : List.filter onYAxis (1 :: t) = List.filter onYAxis t :=
        List.filter_cons_of_neg (by decide)
      rw [e1, e2, moveOriginEach_cons]
    · have e1 : List.filter onXAxis (2 :: t) = List.filter onXAxis t :=
        List.filter_cons_of_neg (by decide)
      have e2 : List.filter onYAxis (2 :: t) = 2 :: List.filter onYAxis t :=
        List.filter_cons_of_pos (by decide)
      rw [e1, e2, moveOriginEach_cons, moveOriginEach_comm _ 2 hxs (Or.inl rfl)]
    · have e1 : List.filter onXAxis (4 :: t) = 4 :: List.filter onXAxis t :=
        List.filter_cons_of_pos (by decide)
      have e2 : List.filter onYAxis (4 :: t) = List.filter onYAxis t :=
        List.filter_cons_of_neg (by decide)
      rw [e1, e2, moveOriginEach_cons]
    · have e1 : List.filter onXAxis (8 :: t) = List.filter onXAxis t :=
        List.filter_cons_of_neg (by decide)
      have e2 : List.filter onYAxis (8 :: t) = 8 :: List.filter onYAxis t :=
        List.filter_cons_of_pos (by decide)
      rw [e1, e2, moveOriginEach_cons, moveOriginEach_comm _ 8 hxs (Or.inr rfl)]


theorem perm_pair_cases (a b : Int) (hab : a ≠ b) (l : List Int) (h : l.Perm [a, b]) :
    l = [a, b] ∨ l = [b, a] := by
  have hlen := h.length_eq
  match l, hlen with
  | [p, q], _ =>
    have hp : p ∈ [a, b] := h.subset (List.mem_cons_self p _)
    have hq : q ∈ [a, b] := h.subset (List.mem_cons_of_mem p (List.mem_cons_self q _))
    have hnd : [p, q].Nodup := h.nodup_iff.mpr (by simp [hab])
    simp only [List.mem_cons, List.mem_singleton, List.not_mem_nil, or_false] at hp hq
    rcases hp with rfl | rfl <;> rcases hq with rfl | rfl <;> simp_all

theorem activeDirections_mem (mask d : Int) (h : d ∈ activeDirections mask) :
    d = 1 ∨ d = 2 ∨ d = 4 ∨ d = 8 := by
  have h2 := (List.mem_filter.mp h).1
  simpa using h2

theorem activeDirections_eq (mask : Int) :
    activeDirections mask =
      (if Int.land mask 1 = 0 then [] else [1]) ++ (if Int.land mask 2 = 0 then [] else [2]) ++
      (if Int.land mask 4 = 0 then [] else [4]) ++ (if Int.land mask 8 = 0 then [] else [8]) := by
  unfold activeDirections
  by_cases h1 : Int.land mask 1 = 0 <;> by_cases h2 : Int.land mask 2 = 0 <;>
    by_cases h4 : Int.land mask 4 = 0 <;> by_cases h8 : Int.land mask 8 = 0 <;>
    simp [List.filter, h1, h2, h4, h8]

theorem activeDirections_x (mask : Int) :
    (activeDirections mask).filter onXAxis =
      (if Int.land mask 1 = 0 then [] else [1]) ++ (if Int.land mask 4 = 0 then [] else [4]) := by
  rw [activeDirections_eq]
  by_cases h1 : Int.land mask 1 = 0 <;> by_cases h2 : Int.land mask 2 = 0 <;>
    by_cases h4 : Int.land mask 4 = 0 <;> by_cases h8 : Int.land mask 8 = 0 <;>
    simp only [h1, h2, h4, h8, if_true, if_false] <;> decide

theorem activeDirections_y (mask : Int) :
    (activeDirections mask).filter onYAxis =
      (if Int.land mask 2 = 0 then [] else [2]) ++ (if Int.land mask 8 = 0 then [] else [8]) := by
  rw [activeDirections_eq]
  by_cases h1 : Int.land mask 1 = 0 <;> by_cases h2 : Int.land mask 2 = 0 <;>
    by_cases h4 : Int.land mask 4 = 0 <;> by_cases h8 : Int.land mask 8 = 0 <;>
    simp only [h1, h2, h4, h8, if_true, if_false] <;> decide

theorem moveOrigin_eq_each_active (mask : Int) (c : Context) :
    moveOrigin mask c = moveOriginEach (activeDirections mask) c := by
  rw [activeDirections_eq, moveOrigin_eq]
  by_cases h1 : Int.land mask 1 = 0 <;> by_cases h2 : Int.land mask 2 = 0 <;>
    by_cases h4 : Int.land mask 4 = 0 <;> by_cases h8 : Int.land mask 8 = 0 <;>
    simp only [h1, h2, h4, h8, if_true, if_false, applyWhen, ne_eq, not_true_eq_false,
      not_false_eq_true, List.nil_append, List.append_nil, List.cons_append,
      List.singleton_append, moveOriginEach, List.foldl_cons, List.foldl_nil,
      moveOrigin_left, moveOrigin_top, moveOrigin_right, moveOrigin_down]

theorem axis_order_eq (a b : Int) (hab : a ≠ b) (p q : Prop) [Decidable p] [Decidable q]
    (l : List Int)
    (h : l.Perm ((if p then [] else [a]) ++ (if q then [] else [b])))
    (hord : l ≠ [b, a]) :
    l = (if p then [] else [a]) ++ (if q then [] else [b]) := by
  by_cases hp : p <;> by_cases hq : q <;>
    simp only [hp, hq, if_true, if_false, List.nil_append, List.append_nil,
      List.singleton_append] at h ⊢
  · exact List.perm_nil.mp h
  · exact List.perm_singleton.mp h
  · exact List.perm_singleton.mp h
  · rcases perm_pair_cases a b hab l h with h2 | h2
    · exact h2
    · exact absurd h2 hord

/-! ### Binary32 rounding -/

theorem roundHalfEven_bounds (x : ℚ) :
    ⌊x⌋ ≤ roundHalfEven x ∧ roundHalfEven x ≤ ⌊x⌋ + 1 := by
  unfold roundHalfEven
  split_ifs <;> constructor <;> omega

theorem roundHalfEven_eq (x : ℚ) (n : Int) (h1 : (n : ℚ) - 1 / 2 < x) (h2 : x < (n : ℚ) + 1 / 2) :
    roundHalfEven x = n := by
  rcases le_or_lt (n : ℚ) x with h | h
  · have hf : ⌊x⌋ = n := Int.floor_eq_iff.mpr ⟨h, by linarith⟩
    unfold roundHalfEven
    rw [hf, if_pos (by linarith)]
  · have hf : ⌊x⌋ = n - 1 := Int.floor_eq_iff.mpr ⟨by push_cast; linarith, by push_cast; linarith⟩
    unfold roundHalfEven
    rw [hf, if_neg (by push_cast; linarith), if_pos (by push_cast; linarith)]
    ring

theorem roundHalfEven_intCast (n : Int) : roundHalfEven (n : ℚ) = n :=
  roundHalfEven_eq _ n (by linarith) (by linarith)

theorem roundHalfEven_mono (x y : ℚ) (h : x ≤ y) : roundHalfEven x ≤ roundHalfEven y := by
  have hfl : ⌊x⌋ ≤ ⌊y⌋ := Int.floor_mono h
  rcases lt_or_eq_of_le hfl with hlt | heq
  · exact le_trans (roundHalfEven_bounds x).2 (le_trans hlt (roundHalfEven_bounds y).1)
  · unfold roundHalfEven
    rw [← heq]
    split_ifs <;> first | omega | (exfalso; linarith)


theorem ulpF32_pos (x : ℚ) : 0 < ulpF32 x := zpow_pos (by norm_num) _

theorem log_eq_of_bounds (x : ℚ) (e : Int) (h1 : (2 : ℚ) ^ e ≤ x) (h2 : x < (2 : ℚ) ^ (e + 1)) :
    Int.log 2 x = e := by
  have hx : 0 < x := lt_of_lt_of_le (zpow_pos (by norm_num) _) h1
  have a : e ≤ Int.log 2 x := (Int.zpow_le_iff_le_log (by norm_num) hx).mp (by exact_mod_cast h1)
  have b : Int.log 2 x < e + 1 := (Int.lt_zpow_iff_log_lt (by norm_num) hx).mp (by exact_mod_cast h2)
  omega

theorem roundMagF32_nonneg (x : ℚ) (hx : 0 ≤ x) : 0 ≤ roundMagF32 x := by
  unfold roundMagF32
  have h0 : (0 : ℚ) ≤ x / ulpF32 x := div_nonneg hx (ulpF32_pos x).le
  have h1 : (0 : Int) ≤ roundHalfEven (x / ulpF32 x) := by
    have := roundHalfEven_mono 0 _ h0
    rwa [show roundHalfEven 0 = 0 from by exact_mod_cast roundHalfEven_intCast 0] at this
  exact mul_nonneg (by exact_mod_cast h1) (ulpF32_pos x).le

theorem roundMagF32_zero : roundMagF32 0 = 0 := by
  unfold roundMagF32
  rw [zero_div, show roundHalfEven 0 = 0 from by exact_mod_cast roundHalfEven_intCast 0]
  simp

theorem roundHalfEven_tie_even (x : ℚ) (n : Int) (heven : n % 2 = 0)
    (h : x = (n : ℚ) + 1 / 2 ∨ x = (n : ℚ) - 1 / 2) : roundHalfEven x = n := by
  rcases h with h | h
  · have hf : ⌊x⌋ = n := Int.floor_eq_iff.mpr ⟨by linarith, by linarith⟩
    unfold roundHalfEven
    rw [hf, if_neg (by linarith), if_neg (by linarith), if_pos heven]
  · have hf : ⌊x⌋ = n - 1 :=
      Int.floor_eq_iff.mpr ⟨by push_cast; linarith, by push_cast; linarith⟩
    unfold roundHalfEven
    rw [hf, if_neg (by push_cast; linarith), if_neg (by push_cast; linarith),
      if_neg (by omega)]
    ring

/-- Evaluation of the rounding inside a known binade. -/
theorem roundMagF32_eval (x : ℚ) (e n : Int) (he : -126 ≤ e) (h1 : (2 : ℚ) ^ e ≤ x)
    (h2 : x < (2 : ℚ) ^ (e + 1)) (hn : roundHalfEven (x / (2 : ℚ) ^ (e - 23)) = n) :
    roundMagF32 x = (n : ℚ) * (2 : ℚ) ^ (e - 23) := by
  have hu : ulpF32 x = (2 : ℚ) ^ (e - 23) := by
    unfold ulpF32
    rw [log_eq_of_bounds x e h1 h2, max_eq_left he]
  unfold roundMagF32
  rw [hu, hn]

theorem two_zpow_split (a b : Int) : (2 : ℚ) ^ a = (2 : ℚ) ^ (a - b) * (2 : ℚ) ^ b := by
  rw [← zpow_add₀ (by norm_num : (2 : ℚ) ≠ 0)]
  congr 1
  ring

theorem binade_upper (x : ℚ) :
    x < (2 : ℚ) ^ (max (Int.log 2 x) (-126) + 1) := by
  have h := Int.lt_zpow_succ_log_self (R := ℚ) (b := 2) (by norm_num) x
  have h2 : (2 : ℚ) ^ (Int.log 2 x + 1) ≤ (2 : ℚ) ^ (max (Int.log 2 x) (-126) + 1) :=
    zpow_le_zpow_right₀ (by norm_num) (by have := le_max_left (Int.log 2 x) (-126); omega)
  exact lt_of_lt_of_le (by exact_mod_cast h) h2

theorem roundMagF32_le_binade (x : ℚ) :
    roundMagF32 x ≤ (2 : ℚ) ^ (max (Int.log 2 x) (-126) + 1) := by
  have hu := ulpF32_pos x
  have hq : x / ulpF32 x ≤ (((2 : Int) ^ 24 : Int) : ℚ) := by
    rw [div_le_iff₀ hu]
    have h := (binade_upper x).le
    rw [two_zpow_split _ (max (Int.log 2 x) (-126) - 23)] at h
    have e : max (Int.log 2 x) (-126) + 1 - (max (Int.log 2 x) (-126) - 23) = 24 := by ring
    rw [e] at h
    unfold ulpF32
    norm_num at h ⊢
    exact h
  have hr := roundHalfEven_mono _ _ hq
  rw [roundHalfEven_intCast] at hr
  have hr2 : ((roundHalfEven (x / ulpF32 x) : Int) : ℚ) ≤ (((2 : Int) ^ 24 : Int) : ℚ) := by
    exact_mod_cast hr
  unfold roundMagF32
  calc ((roundHalfEven (x / ulpF32 x) : Int) : ℚ) * ulpF32 x
      ≤ (((2 : Int) ^ 24 : Int) : ℚ) * ulpF32 x := mul_le_mul_of_nonneg_right hr2 hu.le
    _ = (2 : ℚ) ^ (max (Int.log 2 x) (-126) + 1) := by
        rw [two_zpow_split (max (Int.log 2 x) (-126) + 1) (max (Int.log 2 x) (-126) - 23)]
        have e : max (Int.log 2 x) (-126) + 1 - (max (Int.log 2 x) (-126) - 23) = 24 := by ring
        rw [e]
        unfold ulpF32
        norm_num

theorem binade_le_roundMagF32 (x : ℚ) (hx : 0 < x) (hn : -126 ≤ Int.log 2 x) :
    (2 : ℚ) ^ (Int.log 2 x) ≤ roundMagF32 x := by
  have hu := ulpF32_pos x
  have hE : max (Int.log 2 x) (-126) = Int.log 2 x := max_eq_left hn
  have hul : ulpF32 x = (2 : ℚ) ^ (Int.log 2 x - 23) := by unfold ulpF32; rw [hE]
  have hlow : (2 : ℚ) ^ (Int.log 2 x) ≤ x := by
    have h := Int.zpow_log_le_self (R := ℚ) (b := 2) (by norm_num) hx
    exact_mod_cast h
  have hsplit : (2 : ℚ) ^ (Int.log 2 x) = (((2 : Int) ^ 23 : Int) : ℚ) * ulpF32 x := by
    rw [hul, two_zpow_split (Int.log 2 x) (Int.log 2 x - 23)]
    have e : Int.log 2 x - (Int.log 2 x - 23) = 23 := by ring
    rw [e]
    norm_num
  have hq : (((2 : Int) ^ 23 : Int) : ℚ) ≤ x / ulpF32 x := by
    rw [le_div_iff₀ hu, ← hsplit]
    exact hlow
  have hr := roundHalfEven_mono _ _ hq
  rw [roundHalfEven_intCast] at hr
  have hr2 : (((2 : Int) ^ 23 : Int) : ℚ) ≤ ((roundHalfEven (x / ulpF32 x) : Int) : ℚ) := by
    exact_mod_cast hr
  rw [hsplit]
  unfold roundMagF32
  exact mul_le_mul_of_nonneg_right hr2 hu.le

theorem roundMagF32_mono (x y : ℚ) (hx : 0 ≤ x) (hxy : x ≤ y) :
    roundMagF32 x ≤ roundMagF32 y := by
  rcases eq_or_lt_of_le hx with h0 | hpos
  · rw [← h0, roundMagF32_zero]
    exact roundMagF32_nonneg y (le_trans hx hxy)
  · have hy : 0 < y := lt_of_lt_of_le hpos hxy
    have hlog : Int.log 2 x ≤ Int.log 2 y := Int.log_mono_right hpos hxy
    have hE : max (Int.log 2 x) (-126) ≤ max (Int.log 2 y) (-126) := max_le_max hlog le_rfl
    rcases eq_or_lt_of_le hE with heq | hlt
    · have hu : ulpF32 x = ulpF32 y := by unfold ulpF32; rw [heq]
      unfold roundMagF32
      rw [hu]
      have hq : x / ulpF32 y ≤ y / ulpF32 y := div_le_div_of_nonneg_right hxy (ulpF32_pos y).le
      have hr := roundHalfEven_mono _ _ hq
      exact mul_le_mul_of_nonneg_right (by exact_mod_cast hr) (ulpF32_pos y).le
    · have hn : -126 ≤ Int.log 2 y := by
        by_contra hcon
        have : max (Int.log 2 y) (-126) = -126 := max_eq_right (by omega)
        have := le_max_right (Int.log 2 x) (-126)
        omega
      have hEy : max (Int.log 2 y) (-126) = Int.log 2 y := max_eq_left hn
      calc roundMagF32 x ≤ (2 : ℚ) ^ (max (Int.log 2 x) (-126) + 1) := roundMagF32_le_binade x
        _ ≤ (2 : ℚ) ^ (Int.log 2 y) := zpow_le_zpow_right₀ (by norm_num) (by omega)
        _ ≤ roundMagF32 y := binade_le_roundMagF32 y hy hn


theorem roundMagF32_of_multiple (y : ℚ) (m : Int) (h : y = (m : ℚ) * ulpF32 y) :
    roundMagF32 y = y := by
  have hu := ulpF32_pos y
  have hq : y / ulpF32 y = (m : ℚ) := by
    rw [div_eq_iff hu.ne']
    exact h
  unfold roundMagF32
  rw [hq, roundHalfEven_intCast]
  exact h.symm

theorem roundMagF32_idem (x : ℚ) (hx : 0 ≤ x) : roundMagF32 (roundMagF32 x) = roundMagF32 x := by
  have hy0 := roundMagF32_nonneg x hx
  rcases eq_or_lt_of_le hy0 with h0 | hpos
  · rw [← h0, roundMagF32_zero]
  · have hle := roundMagF32_le_binade x
    have hE : -126 ≤ max (Int.log 2 x) (-126) := le_max_right _ _
    rcases eq_or_lt_of_le hle with heq | hlt
    · -- rounded up to the next power of two
      have hlog : Int.log 2 (roundMagF32 x) = max (Int.log 2 x) (-126) + 1 := by
        rw [heq]
        have := Int.log_zpow (R := ℚ) (b := 2) (by norm_num) (max (Int.log 2 x) (-126) + 1)
        exact_mod_cast this
      apply roundMagF32_of_multiple _ ((2 : Int) ^ 23)
      have hul : ulpF32 (roundMagF32 x) = (2 : ℚ) ^ (max (Int.log 2 x) (-126) + 1 - 23) := by
        unfold ulpF32
        rw [hlog, max_eq_left (by omega)]
      rw [hul, heq, two_zpow_split (max (Int.log 2 x) (-126) + 1)
        (max (Int.log 2 x) (-126) + 1 - 23)]
      have e : max (Int.log 2 x) (-126) + 1 - (max (Int.log 2 x) (-126) + 1 - 23) = 23 := by
        ring
      rw [e]
      norm_num
    · have hlog : Int.log 2 (roundMagF32 x) < max (Int.log 2 x) (-126) + 1 :=
        (Int.lt_zpow_iff_log_lt (by norm_num) hpos).mp (by exact_mod_cast hlt)
      have hEy : max (Int.log 2 (roundMagF32 x)) (-126) ≤ max (Int.log 2 x) (-126) :=
        max_le (by omega) hE
      obtain ⟨k, hk⟩ := Int.eq_ofNat_of_zero_le (sub_nonneg.mpr hEy)
      apply roundMagF32_of_multiple _ (roundHalfEven (x / ulpF32 x) * (2 : Int) ^ k)
      have hul : ulpF32 x = (2 : ℚ) ^ (k : Int) * ulpF32 (roundMagF32 x) := by
        unfold ulpF32
        rw [← zpow_add₀ (by norm_num : (2 : ℚ) ≠ 0), ← hk]
        congr 1
        ring
      have hdef : roundMagF32 x = (roundHalfEven (x / ulpF32 x) : ℚ) * ulpF32 x := rfl
      generalize ulpF32 (roundMagF32 x) = U at hul ⊢
      generalize roundHalfEven (x / ulpF32 x) = n at hdef ⊢
      rw [hdef, hul, zpow_natCast]
      push_cast
      ring


theorem roundF32_of_nonneg (x : ℚ) (hx : 0 ≤ x) : roundF32 x = roundMagF32 x := by
  unfold roundF32
  rw [if_pos hx]

theorem roundF32_of_neg (x : ℚ) (hx : x < 0) : roundF32 x = -roundMagF32 (-x) := by
  unfold roundF32
  rw [if_neg (not_le.mpr hx)]

theorem roundF32_nonneg (x : ℚ) (hx : 0 ≤ x) : 0 ≤ roundF32 x := by
  rw [roundF32_of_nonneg x hx]
  exact roundMagF32_nonneg x hx

theorem roundF32_nonpos (x : ℚ) (hx : x ≤ 0) : roundF32 x ≤ 0 := by
  rcases eq_or_lt_of_le hx with h0 | hneg
  · rw [h0, roundF32_of_nonneg 0 le_rfl, roundMagF32_zero]
  · rw [roundF32_of_neg x hneg]
    have := roundMagF32_nonneg (-x) (by linarith)
    linarith

theorem roundF32_mono (x y : ℚ) (h : x ≤ y) : roundF32 x ≤ roundF32 y := by
  rcases le_or_lt 0 x with hx | hx
  · rw [roundF32_of_nonneg x hx, roundF32_of_nonneg y (le_trans hx h)]
    exact roundMagF32_mono x y hx h
  · rcases le_or_lt 0 y with hy | hy
    · exact le_trans (roundF32_nonpos x hx.le) (roundF32_nonneg y hy)
    · rw [roundF32_of_neg x hx, roundF32_of_neg y hy]
      have := roundMagF32_mono (-y) (-x) (by linarith) (by linarith)
      linarith

theorem roundF32_idem (x : ℚ) : roundF32 (roundF32 x) = roundF32 x := by
  rcases le_or_lt 0 x with hx | hx
  · rw [roundF32_of_nonneg x hx, roundF32_of_nonneg _ (roundMagF32_nonneg x hx)]
    exact roundMagF32_idem x hx
  · have hm := roundMagF32_nonneg (-x) (by linarith)
    rw [roundF32_of_neg x hx]
    rcases eq_or_lt_of_le hm with h0 | hpos
    · rw [← h0, neg_zero, roundF32_of_nonneg 0 le_rfl, roundMagF32_zero]
    · rw [roundF32_of_neg _ (by linarith), neg_neg, roundMagF32_idem (-x) (by linarith)]

theorem roundF32_neg (x : ℚ) (hx : 0 < x) : roundF32 (-x) = -roundF32 x := by
  rw [roundF32_of_neg (-x) (by linarith), neg_neg, roundF32_of_nonneg x hx.le]

theorem roundF32_eval (x : ℚ) (e n : Int) (he : -126 ≤ e) (h1 : (2 : ℚ) ^ e ≤ x)
    (h2 : x < (2 : ℚ) ^ (e + 1)) (hn : roundHalfEven (x / (2 : ℚ) ^ (e - 23)) = n) :
    roundF32 x = (n : ℚ) * (2 : ℚ) ^ (e - 23) := by
  have hx : 0 ≤ x := le_trans (zpow_pos (by norm_num) _).le h1
  rw [roundF32_of_nonneg x hx]
  exact roundMagF32_eval x e n he h1 h2 hn

theorem roundF32_zero : roundF32 0 = 0 := by
  rw [roundF32_of_nonneg 0 le_rfl, roundMagF32_zero]

theorem roundF32_one : roundF32 1 = 1 := by
  rw [roundF32_eval 1 0 8388608 (by norm_num) (by norm_num) (by norm_num)
    (roundHalfEven_eq _ _ (by norm_num) (by norm_num))]
  norm_num

theorem roundF32_four : roundF32 4 = 4 := by
  rw [roundF32_eval 4 2 8388608 (by norm_num) (by norm_num) (by norm_num)
    (roundHalfEven_eq _ _ (by norm_num) (by norm_num))]
  norm_num

theorem roundF32_doubleTenth : roundF32 doubleTenth = floatTenth := by
  unfold doubleTenth floatTenth
  rw [roundF32_eval _ (-4) 13421773 (by norm_num) (by norm_num) (by norm_num)
    (roundHalfEven_eq _ _ (by norm_num) (by norm_num))]
  norm_num

theorem roundF32_tenth : roundF32 (1 / 10) = floatTenth := by
  unfold floatTenth
  rw [roundF32_eval _ (-4) 13421773 (by norm_num) (by norm_num) (by norm_num)
    (roundHalfEven_eq _ _ (by norm_num) (by norm_num))]
  norm_num

theorem roundF32_floatTenth : roundF32 floatTenth = floatTenth := by
  rw [← roundF32_doubleTenth, roundF32_idem]

/-! ### `setScale` in binary32 arithmetic -/

theorem setScaleF32_scaleStep (mod : Int) (c : Context) :
    (setScaleF32 mod c).scaleStep = c.scaleStep := rfl

theorem setScaleF32_fixed (m : Int) (c : Context) (h : (setScaleF32 m c).scale = c.scale) :
    setScaleF32 m c = c := by
  have e : ∀ s : ℚ, ({ c with scale := s } : Context).scale = c.scale →
      ({ c with scale := s } : Context) = c := by
    intro s hs
    simp only at hs
    rw [hs]
  exact e _ h

theorem floatTenth_le_of_rep (x : ℚ) (hrep : roundF32 x = x) (h : 1 / 10 ≤ x) :
    floatTenth ≤ x := by
  rw [← hrep, ← roundF32_tenth]
  exact roundF32_mono _ _ h

theorem doubleTenth_lt_floatTenth : doubleTenth < floatTenth := by
  unfold doubleTenth floatTenth
  norm_num

theorem tenth_le_floatTenth : (1 : ℚ) / 10 ≤ floatTenth := by
  unfold floatTenth
  norm_num

theorem floatTenth_le_four : floatTenth ≤ 4 := by
  unfold floatTenth
  norm_num

theorem setScaleF32_up (c : Context) (hc : scaleInRangeF32 c)
    (hsrep : roundF32 c.scaleStep = c.scaleStep) (hstep : 0 < c.scaleStep) :
    (setScaleF32 1 c).scale = zoomInF32 c.scaleStep c.scale := by
  obtain ⟨hrep, hlo, hhi⟩ := hc
  have hd : roundF32 (roundF32 ((1 : Int) : ℚ) * c.scaleStep) = c.scaleStep := by
    rw [Int.cast_one, roundF32_one, one_mul, hsrep]
  have hge : c.scale ≤ roundF32 (c.scale + c.scaleStep) := by
    have h := roundF32_mono c.scale (c.scale + c.scaleStep) (by linarith)
    rwa [hrep] at h
  have hnot : ¬ roundF32 (c.scale + c.scaleStep) ≤ doubleTenth := by
    have h1 := floatTenth_le_of_rep c.scale hrep hlo
    have h2 := doubleTenth_lt_floatTenth
    intro h
    linarith
  simp only [setScaleF32, zoomInF32, hd, if_neg hnot]
  split_ifs with h
  · rw [min_eq_right h]
  · rw [min_eq_left (not_le.mp h).le]

theorem setScaleF32_down (c : Context) (hc : scaleInRangeF32 c)
    (hsrep : roundF32 c.scaleStep = c.scaleStep) (hstep : 0 < c.scaleStep) :
    (setScaleF32 (-1) c).scale = zoomOutF32 c.scaleStep c.scale := by
  obtain ⟨hrep, hlo, hhi⟩ := hc
  have hm1 : roundF32 (((-1 : Int) : ℚ)) = -1 := by
    rw [Int.cast_neg, Int.cast_one, roundF32_neg 1 (by norm_num), roundF32_one]
  have hd : roundF32 (roundF32 ((-1 : Int) : ℚ) * c.scaleStep) = -c.scaleStep := by
    rw [hm1, neg_one_mul, roundF32_neg _ hstep, hsrep]
  have hle : roundF32 (c.scale - c.scaleStep) ≤ c.scale := by
    have h := roundF32_mono (c.scale - c.scaleStep) c.scale (by linarith)
    rwa [hrep] at h
  simp only [setScaleF32, zoomOutF32, hd, ← sub_eq_add_neg, roundF32_doubleTenth]
  have hf4 : ¬ (floatTenth ≥ 4) := by unfold floatTenth; norm_num
  by_cases h1 : roundF32 (c.scale - c.scaleStep) ≤ doubleTenth
  · rw [if_pos h1, if_neg hf4, max_eq_right (le_trans h1 doubleTenth_lt_floatTenth.le)]
  · have hge : floatTenth ≤ roundF32 (c.scale - c.scaleStep) := by
      have h := roundF32_mono doubleTenth (roundF32 (c.scale - c.scaleStep)) (not_le.mp h1).le
      rwa [roundF32_doubleTenth, roundF32_idem] at h
    rw [if_neg h1, max_eq_left hge]
    split_ifs with h4
    · exact le_antisymm h4 (le_trans hle hhi)
    · rfl

theorem zoomInF32_spec (step x : ℚ) (hrep : roundF32 x = x) (hlo : 1 / 10 ≤ x) (hhi : x ≤ 4)
    (hstep : 0 < step) :
    x ≤ zoomInF32 step x ∧ roundF32 (zoomInF32 step x) = zoomInF32 step x ∧
    1 / 10 ≤ zoomInF32 step x ∧ zoomInF32 step x ≤ 4 := by
  have hge : x ≤ roundF32 (x + step) := by
    have h := roundF32_mono x (x + step) (by linarith)
    rwa [hrep] at h
  have h1 : x ≤ zoomInF32 step x := le_min hge hhi
  refine ⟨h1, ?_, le_trans hlo h1, min_le_right _ _⟩
  unfold zoomInF32
  rcases le_total (roundF32 (x + step)) 4 with h | h
  · rw [min_eq_left h, roundF32_idem]
  · rw [min_eq_right h, roundF32_four]

theorem zoomOutF32_spec (step x : ℚ) (hrep : roundF32 x = x) (hlo : 1 / 10 ≤ x) (hhi : x ≤ 4)
    (hstep : 0 < step) :
    zoomOutF32 step x ≤ x ∧ roundF32 (zoomOutF32 step x) = zoomOutF32 step x ∧
    1 / 10 ≤ zoomOutF32 step x ∧ zoomOutF32 step x ≤ 4 := by
  have hle : roundF32 (x - step) ≤ x := by
    have h := roundF32_mono (x - step) x (by linarith)
    rwa [hrep] at h
  have h1 : zoomOutF32 step x ≤ x := max_le hle (floatTenth_le_of_rep x hrep hlo)
  refine ⟨h1, ?_, le_trans tenth_le_floatTenth (le_max_right _ _), le_trans h1 hhi⟩
  unfold zoomOutF32
  rcases le_total (roundF32 (x - step)) floatTenth with h | h
  · rw [max_eq_right h, roundF32_floatTenth]
  · rw [max_eq_left h, roundF32_idem]

theorem setScaleF32_keeps (m : Int) (hm : m = 1 ∨ m = -1) (c : Context)
    (hc : scaleInRangeF32 c) (hsrep : roundF32 c.scaleStep = c.scaleStep)
    (hstep : 0 < c.scaleStep) : scaleInRangeF32 (setScaleF32 m c) := by
  have hc2 := hc
  obtain ⟨hrep, hlo, hhi⟩ := hc2
  unfold scaleInRangeF32
  rcases hm with rfl | rfl
  · rw [setScaleF32_up c hc hsrep hstep]
    exact (zoomInF32_spec _ _ hrep hlo hhi hstep).2
  · rw [setScaleF32_down c hc hsrep hstep]
    exact (zoomOutF32_spec _ _ hrep hlo hhi hstep).2

theorem setScaleF32Each_keeps (ms : List Int) (hms : ∀ m ∈ ms, m = 1 ∨ m = -1) (c : Context)
    (hc : scaleInRangeF32 c) (hsrep : roundF32 c.scaleStep = c.scaleStep)
    (hstep : 0 < c.scaleStep) :
    scaleInRangeF32 (setScaleF32Each ms c) ∧ (setScaleF32Each ms c).scaleStep = c.scaleStep := by
  induction ms generalizing c with
  | nil => exact ⟨hc, rfl⟩
  | cons m t ih =>
    exact ih (fun x hx => hms x (List.mem_cons_of_mem m hx)) (setScaleF32 m c)
      (setScaleF32_keeps m (hms m (List.mem_cons_self m t)) c hc hsrep hstep) hsrep hstep

theorem setScaleF32_up_iterate (n : Nat) (c : Context) (hc : scaleInRangeF32 c)
    (hsrep : roundF32 c.scaleStep = c.scaleStep) (hstep : 0 < c.scaleStep) :
    ((setScaleF32 1)^[n] c).scale = (zoomInF32 c.scaleStep)^[n] c.scale ∧
    scaleInRangeF32 ((setScaleF32 1)^[n] c) ∧
    ((setScaleF32 1)^[n] c).scaleStep = c.scaleStep := by
  induction n with
  | zero => exact ⟨rfl, hc, rfl⟩
  | succ k ih =>
    obtain ⟨i1, i2, i3⟩ := ih
    rw [Function.iterate_succ_apply', Function.iterate_succ_apply']
    refine ⟨?_, setScaleF32_keeps 1 (Or.inl rfl) _ i2 (by rw [i3]; exact hsrep)
      (by rw [i3]; exact hstep), i3⟩
    rw [setScaleF32_up _ i2 (by rw [i3]; exact hsrep) (by rw [i3]; exact hstep), i3, i1]

theorem setScaleF32_down_iterate (n : Nat) (c : Context) (hc : scaleInRangeF32 c)
    (hsrep : roundF32 c.scaleStep = c.scaleStep) (hstep : 0 < c.scaleStep) :
    ((setScaleF32 (-1))^[n] c).scale = (zoomOutF32 c.scaleStep)^[n] c.scale ∧
    scaleInRangeF32 ((setScaleF32 (-1))^[n] c) ∧
    ((setScaleF32 (-1))^[n] c).scaleStep = c.scaleStep := by
  induction n with
  | zero => exact ⟨rfl, hc, rfl⟩
  | succ k ih =>
    obtain ⟨i1, i2, i3⟩ := ih
    rw [Function.iterate_succ_apply', Function.iterate_succ_apply']
    refine ⟨?_, setScaleF32_keeps (-1) (Or.inr rfl) _ i2 (by rw [i3]; exact hsrep)
      (by rw [i3]; exact hstep), i3⟩
    rw [setScaleF32_down _ i2 (by rw [i3]; exact hsrep) (by rw [i3]; exact hstep), i3, i1]


/-! ### The scenario of `main` in binary32 arithmetic -/

/-- Evaluation of one zoom-in step from the binade and the rounded significand of
the exact sum. -/
theorem zoomInF32_eval (x r : ℚ) (e n : Int) (he : -126 ≤ e)
    (h1 : (2 : ℚ) ^ e ≤ x + floatTenth) (h2 : x + floatTenth < (2 : ℚ) ^ (e + 1))
    (hn : roundHalfEven ((x + floatTenth) / (2 : ℚ) ^ (e - 23)) = n)
    (hr : min ((n : ℚ) * (2 : ℚ) ^ (e - 23)) 4 = r) :
    zoomInF32 floatTenth x = r := by
  unfold zoomInF32
  rw [roundF32_eval _ e n he h1 h2 hn, hr]

/-- Evaluation of one zoom-out step from the binade and the rounded significand of
the exact difference. -/
theorem zoomOutF32_eval (x r : ℚ) (e n : Int) (he : -126 ≤ e)
    (h1 : (2 : ℚ) ^ e ≤ x - floatTenth) (h2 : x - floatTenth < (2 : ℚ) ^ (e + 1))
    (hn : roundHalfEven ((x - floatTenth) / (2 : ℚ) ^ (e - 23)) = n)
    (hr : max ((n : ℚ) * (2 : ℚ) ^ (e - 23)) floatTenth = r) :
    zoomOutF32 floatTenth x = r := by
  unfold zoomOutF32
  rw [roundF32_eval _ e n he h1 h2 hn, hr]

/-- Thirty and thirty-one calls of `setScale(+1)` on the scale alone, from scale 1
with the step `main` stores: each `s` line is one call, the binary32 rounding of the
previous scale plus the step. -/
theorem zoomInF32_chain :
    (zoomInF32 floatTenth)^[30] 1 = (16777209 / 4194304) ∧
    (zoomInF32 floatTenth)^[31] 1 = 4 := by
  have s0 : zoomInF32 floatTenth 1 = (9227469 / 8388608) :=
    zoomInF32_eval _ _ 0 9227469 (by norm_num) (by unfold floatTenth; norm_num)
      (by unfold floatTenth; norm_num)
      (roundHalfEven_eq _ _ (by unfold floatTenth; norm_num)
        (by unfold floatTenth; norm_num))
      (by rw [min_eq_left (by norm_num)]; norm_num)
  have s1 : zoomInF32 floatTenth (9227469 / 8388608) = (5033165 / 4194304) :=
    zoomInF32_eval _ _ 0 10066330 (by norm_num) (by unfold floatTenth; norm_num)
      (by unfold floatTenth; norm_num)
      (roundHalfEven_eq _ _ (by unfold floatTenth; norm_num)
        (by unfold floatTenth; norm_num))
      (by rw [min_eq_left (by norm_num)]; norm_num)
  have s2 : zoomInF32 floatTenth (5033165 / 4194304) = (10905191 / 8388608) :=
    zoomInF32_eval _ _ 0 10905191 (by norm_num) (by unfold floatTenth; norm_num)
      (by unfold floatTenth; norm_num)
      (roundHalfEven_eq _ _ (by unfold floatTenth; norm_num)
        (by unfold floatTenth; norm_num))
      (by rw [min_eq_left (by norm_num)]; norm_num)
  have s3 : zoomInF32 floatTenth (10905191 / 8388608) = (2936013 / 2097152) :=
    zoomInF32_eval _ _ 0 11744052 (by norm_num) (by unfold floatTenth; norm_num)
      (by unfold floatTenth; norm_num)
      (roundHalfEven_eq _ _ (by unfold floatTenth; norm_num)
        (by unfold floatTenth; norm_num))
      (by rw [min_eq_left (by norm_num)]; norm_num)
  have s4 : zoomInF32 floatTenth (2936013 / 2097152) = (12582913 / 8388608) :=
    zoomInF32_eval _ _ 0 12582913 (by norm_num) (by unfold floatTenth; norm_num)
      (by unfold floatTenth; norm_num)
      (roundHalfEven_eq _ _ (by unfold floatTenth; norm_num)
        (by unfold floatTenth; norm_num))
      (by rw [min_eq_left (by norm_num)]; norm_num)
  have s5 : zoomInF32 floatTenth (12582913 / 8388608) = (6710887 / 4194304) :=
    zoomInF32_eval _ _ 0 13421774 (by norm_num) (by unfold floatTenth; norm_num)
      (by unfold floatTenth; norm_num)
      (roundHalfEven_eq _ _ (by unfold floatTenth; norm_num)
        (by unfold floatTenth; norm_num))
      (by rw [min_eq_left (by norm_num)]; norm_num)
  have s6 : zoomInF32 floatTenth (6710887 / 4194304) = (14260635 / 8388608) :=
    zoomInF32_eval _ _ 0 14260635 (by norm_num) (by unfold floatTenth; norm_num)
      (by unfold floatTenth; norm_num)
      (roundHalfEven_eq _ _ (by unfold floatTenth; norm_num)
        (by unfold floatTenth; norm_num))
      (by rw [min_eq_left (by norm_num)]; norm_num)
  have s7 : zoomInF32 floatTenth (14260635 / 8388608) = (1887437 / 1048576) :=
    zoomInF32_eval _ _ 0 15099496 (by norm_num) (by unfold floatTenth; norm_num)
      (by unfold floatTenth; norm_num)
      (roundHalfEven_eq _ _ (by unfold floatTenth; norm_num)
        (by unfold floatTenth; norm_num))
      (by rw [min_eq_left (by norm_num)]; norm_num)
  have s8 : zoomInF32 floatTenth (1887437 / 1048576) = (15938357 / 8388608) :=
    zoomInF32_eval _ _ 0 15938357 (by norm_num) (by unfold floatTenth; norm_num)
      (by unfold floatTenth; norm_num)
      (roundHalfEven_eq _ _ (by unfold floatTenth; norm_num)
        (by unfold floatTenth; norm_num))
      (by rw [min_eq_left (by norm_num)]; norm_num)
  have s9 : zoomInF32 floatTenth (15938357 / 8388608) = (8388609 / 4194304) :=
    zoomInF32_eval _ _ 1 8388609 (by norm_num) (by unfold floatTenth; norm_num)
      (by unfold floatTenth; norm_num)
      (roundHalfEven_eq _ _ (by unfold floatTenth; norm_num)
        (by unfold floatTenth; norm_num))
      (by rw [min_eq_left (by norm_num)]; norm_num)
  have s10 : zoomInF32 floatTenth (8388609 / 4194304) = (8808039 / 4194304) :=
    zoomInF32_eval _ _ 1 8808039 (by norm_num) (by unfold floatTenth; norm_num)
      (by unfold floatTenth; norm_num)
      (roundHalfEven_eq _ _ (by unfold floatTenth; norm_num)
        (by unfold floatTenth; norm_num))
      (by rw [min_eq_left (by norm_num)]; norm_num)
  have s11 : zoomInF32 floatTenth (8808039 / 4194304) = (9227469 / 4194304) :=
    zoomInF32_eval _ _ 1 9227469 (by norm_num) (by unfold floatTenth; norm_num)
      (by unfold floatTenth; norm_num)
      (roundHalfEven_eq _ _ (by unfold floatTenth; norm_num)
        (by unfold floatTenth; norm_num))
      (by rw [min_eq_left (by norm_num)]; norm_num)
  have s12 : zoomInF32 floatTenth (9227469 / 4194304) = (9646899 / 4194304) :=
    zoomInF32_eval _ _ 1 9646899 (by norm_num) (by unfold floatTenth; norm_num)
      (by unfold floatTenth; norm_num)
      (roundHalfEven_eq _ _ (by unfold floatTenth; norm_num)
        (by unfold floatTenth; norm_num))
      (by rw [min_eq_left (by norm_num)]; norm_num)
  have s13 : zoomInF32 floatTenth (9646899 / 4194304) = (10066329 / 4194304) :=
    zoomInF32_eval _ _ 1 10066329 (by norm_num) (by unfold floatTenth; norm_num)
      (by unfold floatTenth; norm_num)
      (roundHalfEven_eq _ _ (by unfold floatTenth; norm_num)
        (by unfold floatTenth; norm_num))
      (by rw [min_eq_left (by norm_num)]; norm_num)
  have s14 : zoomInF32 floatTenth (10066329 / 4194304) = (10485759 / 4194304) :=
    zoomInF32_eval _ _ 1 10485759 (by norm_num) (by unfold floatTenth; norm_num)
      (by unfold floatTenth; norm_num)
      (roundHalfEven_eq _ _ (by unfold floatTenth; norm_num)
        (by unfold floatTenth; norm_num))
      (by rw [min_eq_left (by norm_num)]; norm_num)
  have s15 : zoomInF32 floatTenth (10485759 / 4194304) = (10905189 / 4194304) :=
    zoomInF32_eval _ _ 1 10905189 (by norm_num) (by unfold floatTenth; norm_num)
      (by unfold floatTenth; norm_num)
      (roundHalfEven_eq _ _ (by unfold floatTenth; norm_num)
        (by unfold floatTenth; norm_num))
      (by rw [min_eq_left (by norm_num)]; norm_num)
  have s16 : zoomInF32 floatTenth (10905189 / 4194304) = (11324619 / 4194304) :=
    zoomInF32_eval _ _ 1 11324619 (by norm_num) (by unfold floatTenth; norm_num)
      (by unfold floatTenth; norm_num)
      (roundHalfEven_eq _ _ (by unfold floatTenth; norm_num)
        (by unfold floatTenth; norm_num))
      (by rw [min_eq_left (by norm_num)]; norm_num)
  have s17 : zoomInF32 floatTenth (11324619 / 4194304) = (11744049 / 4194304) :=
    zoomInF32_eval _ _ 1 11744049 (by norm_num) (by unfold floatTenth; norm_num)
      (by unfold floatTenth; norm_num)
      (roundHalfEven_eq _ _ (by unfold floatTenth; norm_num)
        (by unfold floatTenth; norm_num))
      (by rw [min_eq_left (by norm_num)]; norm_num)
  have s18 : zoomInF32 floatTenth (11744049 / 4194304) = (12163479 / 4194304) :=
    zoomInF32_eval _ _ 1 12163479 (by norm_num) (by unfold floatTenth; norm_num)
      (by unfold floatTenth; norm_num)
      (roundHalfEven_eq _ _ (by unfold floatTenth; norm_num)
        (by unfold floatTenth; norm_num))
      (by rw [min_eq_left (by norm_num)]; norm_num)
  have s19 : zoomInF32 floatTenth (12163479 / 4194304) = (12582909 / 4194304) :=
    zoomInF32_eval _ _ 1 12582909 (by norm_num) (by unfold floatTenth; norm_num)
      (by unfold floatTenth; norm_num)
      (roundHalfEven_eq _ _ (by unfold floatTenth; norm_num)
        (by unfold floatTenth; norm_num))
      (by rw [min_eq_left (by norm_num)]; norm_num)
  have s20 : zoomInF32 floatTenth (12582909 / 4194304) = (13002339 / 4194304) :=
    zoomInF32_eval _ _ 1 13002339 (by norm_num) (by unfold floatTenth; norm_num)
      (by unfold floatTenth; norm_num)
      (roundHalfEven_eq _ _ (by unfold floatTenth; norm_num)
        (by unfold floatTenth; norm_num))
      (by rw [min_eq_left (by norm_num)]; norm_num)
  have s21 : zoomInF32 floatTenth (13002339 / 4194304) = (13421769 / 4194304) :=
    zoomInF32_eval _ _ 1 13421769 (by norm_num) (by unfold floatTenth; norm_num)
      (by unfold floatTenth; norm_num)
      (roundHalfEven_eq _ _ (by unfold floatTenth; norm_num)
        (by unfold floatTenth; norm_num))
      (by rw [min_eq_left (by norm_num)]; norm_num)
  have s22 : zoomInF32 floatTenth (13421769 / 4194304) = (13841199 / 4194304) :=
    zoomInF32_eval _ _ 1 13841199 (by norm_num) (by unfold floatTenth; norm_num)
      (by unfold floatTenth; norm_num)
      (roundHalfEven_eq _ _ (by unfold floatTenth; norm_num)
        (by unfold floatTenth; norm_num))
      (by rw [min_eq_left (by norm_num)]; norm_num)
  have s23 : zoomInF32 floatTenth (13841199 / 4194304) = (14260629 / 4194304) :=
    zoomInF32_eval _ _ 1 14260629 (by norm_num) (by unfold floatTenth; norm_num)
      (by unfold floatTenth; norm_num)
      (roundHalfEven_eq _ _ (by unfold floatTenth; norm_num)
        (by unfold floatTenth; norm_num))
      (by rw [min_eq_left (by norm_num)]; norm_num)
  have s24 : zoomInF32 floatTenth (14260629 / 4194304) = (14680059 / 4194304) :=
    zoomInF32_eval _ _ 1 14680059 (by norm_num) (by unfold floatTenth; norm_num)
      (by unfold floatTenth; norm_num)
      (roundHalfEven_eq _ _ (by unfold floatTenth; norm_num)
        (by unfold floatTenth; norm_num))
      (by rw [min_eq_left (by norm_num)]; norm_num)
  have s25 : zoomInF32 floatTenth (14680059 / 4194304) = (15099489 / 4194304) :=
    zoomInF32_eval _ _ 1 15099489 (by norm_num) (by unfold floatTenth; norm_num)
      (by unfold floatTenth; norm_num)
      (roundHalfEven_eq _ _ (by unfold floatTenth; norm_num)
        (by unfold floatTenth; norm_num))
      (by rw [min_eq_left (by norm_num)]; norm_num)
  have s26 : zoomInF32 floatTenth (15099489 / 4194304) = (15518919 / 4194304) :=
    zoomInF32_eval _ _ 1 15518919 (by norm_num) (by unfold floatTenth; norm_num)
      (by unfold floatTenth; norm_num)
      (roundHalfEven_eq _ _ (by unfold floatTenth; norm_num)
        (by unfold floatTenth; norm_num))
      (by rw [min_eq_left (by norm_num)]; norm_num)
  have s27 : zoomInF32 floatTenth (15518919 / 4194304) = (15938349 / 4194304) :=
    zoomInF32_eval _ _ 1 15938349 (by norm_num) (by unfold floatTenth; norm_num)
      (by unfold floatTenth; norm_num)
      (roundHalfEven_eq _ _ (by unfold floatTenth; norm_num)
        (by unfold floatTenth; norm_num))
      (by rw [min_eq_left (by norm_num)]; norm_num)
  have s28 : zoomInF32 floatTenth (15938349 / 4194304) = (16357779 / 4194304) :=
    zoomInF32_eval _ _ 1 16357779 (by norm_num) (by unfold floatTenth; norm_num)
      (by unfold floatTenth; norm_num)
      (roundHalfEven_eq _ _ (by unfold floatTenth; norm_num)
        (by unfold floatTenth; norm_num))
      (by rw [min_eq_left (by norm_num)]; norm_num)
  have s29 : zoomInF32 floatTenth (16357779 / 4194304) = (16777209 / 4194304) :=
    zoomInF32_eval _ _ 1 16777209 (by norm_num) (by unfold floatTenth; norm_num)
      (by unfold floatTenth; norm_num)
      (roundHalfEven_eq _ _ (by unfold floatTenth; norm_num)
        (by unfold floatTenth; norm_num))
      (by rw [min_eq_left (by norm_num)]; norm_num)
  have s30 : zoomInF32 floatTenth (16777209 / 4194304) = 4 :=
    zoomInF32_eval _ _ 2 8598320 (by norm_num) (by unfold floatTenth; norm_num)
      (by unfold floatTenth; norm_num)
      (roundHalfEven_eq _ _ (by unfold floatTenth; norm_num)
        (by unfold floatTenth; norm_num))
      (by rw [min_eq_right (by norm_num)])
  have i0 : (zoomInF32 floatTenth)^[1] 1 = (9227469 / 8388608) := by
    rw [Function.iterate_succ_apply', Function.iterate_zero, id]
    exact s0
  have i1 : (zoomInF32 floatTenth)^[2] 1 = (5033165 / 4194304) := by
    rw [Function.iterate_succ_apply', i0]
    exact s1
  have i2 : (zoomInF32 floatTenth)^[3] 1 = (10905191 / 8388608) := by
    rw [Function.iterate_succ_apply', i1]
    exact s2
  have i3 : (zoomInF32 floatTenth)^[4] 1 = (2936013 / 2097152) := by
    rw [Function.iterate_succ_apply', i2]
    exact s3
  have i4 : (zoomInF32 floatTenth)^[5] 1 = (12582913 / 8388608) := by
    rw [Function.iterate_succ_apply', i3]
    exact s4
  have i5 : (zoomInF32 floatTenth)^[6] 1 = (6710887 / 4194304) := by
    rw [Function.iterate_succ_apply', i4]
    exact s5
  have i6 : (zoomInF32 floatTenth)^[7] 1 = (14260635 / 8388608) := by
    rw [Function.iterate_succ_apply', i5]
    exact s6
  have i7 : (zoomInF32 floatTenth)^[8] 1 = (1887437 / 1048576) := by
    rw [Function.iterate_succ_apply', i6]
    exact s7
  have i8 : (zoomInF32 floatTenth)^[9] 1 = (15938357 / 8388608) := by
    rw [Function.iterate_succ_apply', i7]
    exact s8
  have i9 : (zoomInF32 floatTenth)^[10] 1 = (8388609 / 4194304) := by
    rw [Function.iterate_succ_apply', i8]
    exact s9
  have i10 : (zoomInF32 floatTenth)^[11] 1 = (8808039 / 4194304) := by
    rw [Function.iterate_succ_apply', i9]
    exact s10
  have i11 : (zoomInF32 floatTenth)^[12] 1 = (9227469 / 4194304) := by
    rw [Function.iterate_succ_apply', i10]
    exact s11
  have i12 : (zoomInF32 floatTenth)^[13] 1 = (9646899 / 4194304) := by
    rw [Function.iterate_succ_apply', i11]
    exact s12
  have i13 : (zoomInF32 floatTenth)^[14] 1 = (10066329 / 4194304) := by
    rw [Function.iterate_succ_apply', i12]
    exact s13
  have i14 : (zoomInF32 floatTenth)^[15] 1 = (10485759 / 4194304) := by
    rw [Function.iterate_succ_apply', i13]
    exact s14
  have i15 : (zoomInF32 floatTenth)^[16] 1 = (10905189 / 4194304) := by
    rw [Function.iterate_succ_apply', i14]
    exact s15
  have i16 : (zoomInF32 floatTenth)^[17] 1 = (11324619 / 4194304) := by
    rw [Function.iterate_succ_apply', i15]
    exact s16
  have i17 : (zoomInF32 floatTenth)^[18] 1 = (11744049 / 4194304) := by
    rw [Function.iterate_succ_apply', i16]
    exact s17
  have i18 : (zoomInF32 floatTenth)^[19] 1 = (12163479 / 4194304) := by
    rw [Function.iterate_succ_apply', i17]
    exact s18
  have i19 : (zoomInF32 floatTenth)^[20] 1 = (12582909 / 4194304) := by
    rw [Function.iterate_succ_apply', i18]
    exact s19
  have i20 : (zoomInF32 floatTenth)^[21] 1 = (13002339 / 4194304) := by
    rw [Function.iterate_succ_apply', i19]
    exact s20
  have i21 : (zoomInF32 floatTenth)^[22] 1 = (13421769 / 4194304) := by
    rw [Function.iterate_succ_apply', i20]
    exact s21
  have i22 : (zoomInF32 floatTenth)^[23] 1 = (13841199 / 4194304) := by
    rw [Function.iterate_succ_apply', i21]
    exact s22
  have i23 : (zoomInF32 floatTenth)^[24] 1 = (14260629 / 4194304) := by
    rw [Function.iterate_succ_apply', i22]
    exact s23
  have i24 : (zoomInF32 floatTenth)^[25] 1 = (14680059 / 4194304) := by
    rw [Function.iterate_succ_apply', i23]
    exact s24
  have i25 : (zoomInF32 floatTenth)^[26] 1 = (15099489 / 4194304) := by
    rw [Function.iterate_succ_apply', i24]
    exact s25
  have i26 : (zoomInF32 floatTenth)^[27] 1 = (15518919 / 4194304) := by
    rw [Function.iterate_succ_apply', i25]
    exact s26
  have i27 : (zoomInF32 floatTenth)^[28] 1 = (15938349 / 4194304) := by
    rw [Function.iterate_succ_apply', i26]
    exact s27
  have i28 : (zoomInF32 floatTenth)^[29] 1 = (16357779 / 4194304) := by
    rw [Function.iterate_succ_apply', i27]
    exact s28
  have i29 : (zoomInF32 floatTenth)^[30] 1 = (16777209 / 4194304) := by
    rw [Function.iterate_succ_apply', i28]
    exact s29
  have i30 : (zoomInF32 floatTenth)^[31] 1 = 4 := by
    rw [Function.iterate_succ_apply', i29]
    exact s30
  exact ⟨i29, i30⟩

/-- Nine calls of `setScale(-1)` on the scale alone, from scale 1 with the step
`main` stores; the eighth call rounds a tie to even and the ninth reaches the
lower clamp. -/
theorem zoomOutF32_chain :
    (zoomOutF32 floatTenth)^[9] 1 = floatTenth := by
  have s0 : zoomOutF32 floatTenth 1 = (7549747 / 8388608) :=
    zoomOutF32_eval _ _ (-1) 15099494 (by norm_num) (by unfold floatTenth; norm_num)
      (by unfold floatTenth; norm_num)
      (roundHalfEven_eq _ _ (by unfold floatTenth; norm_num)
        (by unfold floatTenth; norm_num))
      (by unfold floatTenth; rw [max_eq_left (by norm_num)]; norm_num)
  have s1 : zoomOutF32 floatTenth (7549747 / 8388608) = (3355443 / 4194304) :=
    zoomOutF32_eval _ _ (-1) 13421772 (by norm_num) (by unfold floatTenth; norm_num)
      (by unfold floatTenth; norm_num)
      (roundHalfEven_eq _ _ (by unfold floatTenth; norm_num)
        (by unfold floatTenth; norm_num))
      (by unfold floatTenth; rw [max_eq_left (by norm_num)]; norm_num)
  have s2 : zoomOutF32 floatTenth (3355443 / 4194304) = (5872025 / 8388608) :=
    zoomOutF32_eval _ _ (-1) 11744050 (by norm_num) (by unfold floatTenth; norm_num)
      (by unfold floatTenth; norm_num)
      (roundHalfEven_eq _ _ (by unfold floatTenth; norm_num)
        (by unfold floatTenth; norm_num))
      (by unfold floatTenth; rw [max_eq_left (by norm_num)]; norm_num)
  have s3 : zoomOutF32 floatTenth (5872025 / 8388608) = (1258291 / 2097152) :=
    zoomOutF32_eval _ _ (-1) 10066328 (by norm_num) (by unfold floatTenth; norm_num)
      (by unfold floatTenth; norm_num)
      (roundHalfEven_eq _ _ (by unfold floatTenth; norm_num)
        (by unfold floatTenth; norm_num))
      (by unfold floatTenth; rw [max_eq_left (by norm_num)]; norm_num)
  have s4 : zoomOutF32 floatTenth (1258291 / 2097152) = (16777213 / 33554432) :=
    zoomOutF32_eval _ _ (-2) 16777213 (by norm_num) (by unfold floatTenth; norm_num)
      (by unfold floatTenth; norm_num)
      (roundHalfEven_eq _ _ (by unfold floatTenth; norm_num)
        (by unfold floatTenth; norm_num))
      (by unfold floatTenth; rw [max_eq_left (by norm_num)]; norm_num)
  have s5 : zoomOutF32 floatTenth (16777213 / 33554432) = (6710885 / 16777216) :=
    zoomOutF32_eval _ _ (-2) 13421770 (by norm_num) (by unfold floatTenth; norm_num)
      (by unfold floatTenth; norm_num)
      (roundHalfEven_eq _ _ (by unfold floatTenth; norm_num)
        (by unfold floatTenth; norm_num))
      (by unfold floatTenth; rw [max_eq_left (by norm_num)]; norm_num)
  have s6 : zoomOutF32 floatTenth (6710885 / 16777216) = (10066327 / 33554432) :=
    zoomOutF32_eval _ _ (-2) 10066327 (by norm_num) (by unfold floatTenth; norm_num)
      (by unfold floatTenth; norm_num)
      (roundHalfEven_eq _ _ (by unfold floatTenth; norm_num)
        (by unfold floatTenth; norm_num))
      (by unfold floatTenth; rw [max_eq_left (by norm_num)]; norm_num)
  have s7 : zoomOutF32 floatTenth (10066327 / 33554432) = (1677721 / 8388608) :=
    zoomOutF32_eval _ _ (-3) 13421768 (by norm_num) (by unfold floatTenth; norm_num)
      (by unfold floatTenth; norm_num)
      (roundHalfEven_tie_even _ _ (by decide)
        (Or.inr (by unfold floatTenth; norm_num)))
      (by unfold floatTenth; rw [max_eq_left (by norm_num)]; norm_num)
  have s8 : zoomOutF32 floatTenth (1677721 / 8388608) = (13421773 / 134217728) :=
    zoomOutF32_eval _ _ (-4) 13421763 (by norm_num) (by unfold floatTenth; norm_num)
      (by unfold floatTenth; norm_num)
      (roundHalfEven_eq _ _ (by unfold floatTenth; norm_num)
        (by unfold floatTenth; norm_num))
      (by unfold floatTenth; rw [max_eq_right (by norm_num)])
  have i0 : (zoomOutF32 floatTenth)^[1] 1 = (7549747 / 8388608) := by
    rw [Function.iterate_succ_apply', Function.iterate_zero, id]
    exact s0
  have i1 : (zoomOutF32 floatTenth)^[2] 1 = (3355443 / 4194304) := by
    rw [Function.iterate_succ_apply', i0]
    exact s1
  have i2 : (zoomOutF32 floatTenth)^[3] 1 = (5872025 / 8388608) := by
    rw [Function.iterate_succ_apply', i1]
    exact s2
  have i3 : (zoomOutF32 floatTenth)^[4] 1 = (1258291 / 2097152) := by
    rw [Function.iterate_succ_apply', i2]
    exact s3
  have i4 : (zoomOutF32 floatTenth)^[5] 1 = (16777213 / 33554432) := by
    rw [Function.iterate_succ_apply', i3]
    exact s4
  have i5 : (zoomOutF32 floatTenth)^[6] 1 = (6710885 / 16777216) := by
    rw [Function.iterate_succ_apply', i4]
    exact s5
  have i6 : (zoomOutF32 floatTenth)^[7] 1 = (10066327 / 33554432) := by
    rw [Function.iterate_succ_apply', i5]
    exact s6
  have i7 : (zoomOutF32 floatTenth)^[8] 1 = (1677721 / 8388608) := by
    rw [Function.iterate_succ_apply', i6]
    exact s7
  have i8 : (zoomOutF32 floatTenth)^[9] 1 = (13421773 / 134217728) := by
    rw [Function.iterate_succ_apply', i7]
    exact s8
  exact i8


theorem zoomOutF32_floatTenth : zoomOutF32 floatTenth floatTenth = floatTenth := by
  unfold zoomOutF32
  rw [sub_self, roundF32_zero, max_eq_right (by unfold floatTenth; norm_num)]

/-! ### Claims -/

/-- C6: `resetView(true, true)` yields scale 1 and origin (0, 0); the two flags act
independently; no call changes the display flags, the step sizes or the
canvas / viewport sizes. -/
theorem resetView_spec (c : Context) :
    resetView true true c = { c with scale := 1, origin := ⟨0, 0⟩ } ∧
    (resetView true true c).scale = 1 ∧ (resetView true true c).origin = ⟨0, 0⟩ ∧
    resetView true false c = { c with scale := 1 } ∧
    resetView false true c = { c with origin := ⟨0, 0⟩ } ∧
    resetView false false c = c ∧
    (∀ rs ro : Bool,
      (resetView rs ro c).overlay = c.overlay ∧
      (resetView rs ro c).originWindowBox = c.originWindowBox ∧
      (resetView rs ro c).originStep = c.originStep ∧
      (resetView rs ro c).scaleStep = c.scaleStep ∧
      (resetView rs ro c).size = c.size ∧
      (resetView rs ro c).window = c.window) := by
  refine ⟨rfl, rfl, rfl, rfl, rfl, rfl, ?_⟩
  intro rs ro
  cases rs <;> cases ro <;> simp [resetView]

/-- C8: the transform built by `adjustOrigin` maps a canvas point `(px, py)` to
`(px * scale + origin.x, py * scale + origin.y)`. -/
theorem adjustOrigin_transformPoint (origin : Vector2f) (scale : ℚ) (p : Vector2f) :
    (adjustOrigin origin scale).transformPoint p =
      ⟨p.x * scale + origin.x, p.y * scale + origin.y⟩ := by
  simp only [adjustOrigin, Transform.Identity, Transform.translate, Transform.scale,
    Transform.combine, Transform.transformPoint]
  congr 1 <;> ring

/-- C7: `dispatchEvent` is the documented dispatch table: the four arrows pan, Add /
PageUp and Subtract / PageDown zoom, O and B negate one flag each and change nothing
else, R resets both; every other key and every event that is not a key press is a
no-op; dispatching O twice, or B twice, restores the state. -/
theorem dispatchEvent_table (c : Context) :
    dispatchEvent (Event.KeyPressed Key.Right) c = moveOrigin 4 c ∧
    dispatchEvent (Event.KeyPressed Key.Left) c = moveOrigin 1 c ∧
    dispatchEvent (Event.KeyPressed Key.Up) c = moveOrigin 2 c ∧
    dispatchEvent (Event.KeyPressed Key.Down) c = moveOrigin 8 c ∧
    dispatchEvent (Event.KeyPressed Key.Add) c = setScale 1 c ∧
    dispatchEvent (Event.KeyPressed Key.PageUp) c = setScale 1 c ∧
    dispatchEvent (Event.KeyPressed Key.Subtract) c = setScale (-1) c ∧
    dispatchEvent (Event.KeyPressed Key.PageDown) c = setScale (-1) c ∧
    dispatchEvent (Event.KeyPressed Key.O) c = { c with overlay := !c.overlay } ∧
    dispatchEvent (Event.KeyPressed Key.B) c =
      { c with originWindowBox := !c.originWindowBox } ∧
    dispatchEvent (Event.KeyPressed Key.R) c = resetView true true c ∧
    (∀ k : Key,
      k ∉ [Key.Right, Key.Left, Key.Up, Key.Down, Key.Add, Key.PageUp, Key.Subtract,
        Key.PageDown, Key.O, Key.B, Key.R] →
      dispatchEvent (Event.KeyPressed k) c = c) ∧
    (∀ e : Event, (∀ k : Key, e ≠ Event.KeyPressed k) → dispatchEvent e c = c) ∧
    dispatchEvent (Event.KeyPressed Key.O) (dispatchEvent (Event.KeyPressed Key.O) c) = c ∧
    dispatchEvent (Event.KeyPressed Key.B) (dispatchEvent (Event.KeyPressed Key.B) c) = c := by
  refine ⟨rfl, rfl, rfl, rfl, rfl, rfl, rfl, rfl, rfl, rfl, rfl, ?_, ?_, ?_, ?_⟩
  · intro k hk
    cases k <;> first | rfl | (exact absurd hk (by decide))
  · intro e he
    cases e <;> first | rfl | (exact absurd rfl (he _))
  · have h : dispatchEvent (Event.KeyPressed Key.O) c = { c with overlay := !c.overlay } := rfl
    have h2 : ∀ d : Context,
        dispatchEvent (Event.KeyPressed Key.O) d = { d with overlay := !d.overlay } :=
      fun _ => rfl
    rw [h2, h2]
    simp
  · have h2 : ∀ d : Context, dispatchEvent (Event.KeyPressed Key.B) d =
        { d with originWindowBox := !d.originWindowBox } :=
      fun _ => rfl
    rw [h2, h2]
    simp

/-- The witness of C7: the key `A` is not in the table and the event `Closed` is
not a key press, so both leave the start state unchanged. -/
theorem dispatchEvent_table_witness :
    dispatchEvent (Event.KeyPressed Key.A) initialContext = initialContext ∧
    dispatchEvent Event.Closed initialContext = initialContext :=
  ⟨(dispatchEvent_table initialContext).2.2.2.2.2.2.2.2.2.2.2.1 Key.A (by decide),
   (dispatchEvent_table initialContext).2.2.2.2.2.2.2.2.2.2.2.2.1 Event.Closed
     (by intro k h; cases h)⟩

/-- C9: the draw calls of one frame are, in order: the untransformed background
rectangle of the window size at (0, 0); iff `originWindowBox`, the closed 5-vertex
line strip of the window rectangle under the view transform; the circle of radius
20 at (0, 0) under the view transform; iff `overlay`, three untransformed text
draws (origin, scale, mouse minus origin).  After `KeyPressed(O)` with the overlay
on, the frame has no text draw; after a resize to (400, 300) the box vertices are
those of the 400x300 rectangle. -/
theorem renderFrame_spec (c : Context) (mouse : Vector2i) :
    renderFrame c mouse =
      [DrawCmd.rectangle ⟨(c.window.size.x : ℚ), (c.window.size.y : ℚ)⟩ ⟨0, 0⟩
        c.backgroundColor Transform.Identity]
      ++ (if c.originWindowBox = true then
            [DrawCmd.lineStrip
              [ ⟨⟨0, 0⟩, Color.Green⟩,
                ⟨⟨(c.window.size.x : ℚ), 0⟩, Color.Green⟩,
                ⟨⟨(c.window.size.x : ℚ), (c.window.size.y : ℚ)⟩, Color.Green⟩,
                ⟨⟨0, (c.window.size.y : ℚ)⟩, Color.Green⟩,
                ⟨⟨0, 0⟩, Color.Green⟩ ]
              (adjustOrigin c.origin c.scale)]
          else [])
      ++ [DrawCmd.circle 20 ⟨0, 0⟩ Color.Red (adjustOrigin c.origin c.scale)]
      ++ (if c.overlay = true then
            [ DrawCmd.text
                [StreamItem.str "originX: ", StreamItem.num c.origin.x,
                 StreamItem.str " originY: ", StreamItem.num c.origin.y]
                12 Color.White ⟨1, 0⟩ Transform.Identity,
              DrawCmd.text [StreamItem.str "scale: ", StreamItem.num c.scale]
                12 Color.White ⟨1, 12⟩ Transform.Identity,
              DrawCmd.text
                [StreamItem.str "mouseX: ", StreamItem.num ((mouse.x : ℚ) - c.origin.x),
                 StreamItem.str " mouseY: ", StreamItem.num ((mouse.y : ℚ) - c.origin.y)]
                12 Color.White ⟨1, 24⟩ Transform.Identity ]
          else []) ∧
    (c.overlay = true →
      ∀ cmd ∈ renderFrame (handleEvent (Event.KeyPressed Key.O) c) mouse,
        cmd.isText = false) ∧
    (c.originWindowBox = true →
      DrawCmd.lineStrip
          [ ⟨⟨0, 0⟩, Color.Green⟩, ⟨⟨400, 0⟩, Color.Green⟩, ⟨⟨400, 300⟩, Color.Green⟩,
            ⟨⟨0, 300⟩, Color.Green⟩, ⟨⟨0, 0⟩, Color.Green⟩ ]
          (adjustOrigin c.origin c.scale)
        ∈ renderFrame (handleEvent (Event.Resized 400 300) c) mouse) := by
  refine ⟨?_, ?_, ?_⟩
  · simp only [renderFrame, drawBackground, drawOriginWindowBox, drawForeground, drawOverlay]
    norm_num
  · intro h cmd hcmd
    have hO : handleEvent (Event.KeyPressed Key.O) c = { c with overlay := !c.overlay } := rfl
    rw [hO] at hcmd
    simp only [renderFrame, drawBackground, drawOriginWindowBox, drawForeground, drawOverlay,
      h] at hcmd
    by_cases hb : c.originWindowBox = true
    · simp [hb] at hcmd
      rcases hcmd with rfl | rfl | rfl <;> rfl
    · simp [hb] at hcmd
      rcases hcmd with rfl | rfl <;> rfl
  · intro h
    have hR : handleEvent (Event.Resized 400 300) c =
        { c with window := { c.window with
            size := ⟨400, 300⟩, view := ⟨0, 0, ((400 : Nat) : ℚ), ((300 : Nat) : ℚ)⟩ } } := rfl
    rw [hR]
    simp [renderFrame, drawBackground, drawOriginWindowBox, drawForeground, drawOverlay, h]

/-- The witness of C9: the start state with the boundary box switched on. -/
theorem renderFrame_spec_witness :
    (∀ cmd ∈ renderFrame (handleEvent (Event.KeyPressed Key.O)
        { initialContext with originWindowBox := true }) ⟨0, 0⟩, cmd.isText = false) ∧
    DrawCmd.lineStrip
        [ ⟨⟨0, 0⟩, Color.Green⟩, ⟨⟨400, 0⟩, Color.Green⟩, ⟨⟨400, 300⟩, Color.Green⟩,
          ⟨⟨0, 300⟩, Color.Green⟩, ⟨⟨0, 0⟩, Color.Green⟩ ]
        (adjustOrigin ⟨0, 0⟩ 1)
      ∈ renderFrame (handleEvent (Event.Resized 400 300)
          { initialContext with originWindowBox := true }) ⟨0, 0⟩ :=
  ⟨(renderFrame_spec { initialContext with originWindowBox := true } ⟨0, 0⟩).2.1 rfl,
   (renderFrame_spec { initialContext with originWindowBox := true } ⟨0, 0⟩).2.2 rfl⟩

/-- C10: panning overshoots a boundary by less than one step: with `originStep > 0`,
`moveOrigin(mask)` preserves each of the bounds `origin.x > -originStep`,
`origin.x < (canvasSize.w - viewportSize.w) + originStep` and the same two bounds
for y; so from origin (0, 0) with the canvas at least as large as the viewport, no
sequence of pans takes the origin a full step outside
`[0, canvasSize - viewportSize]` on either axis. -/
theorem moveOrigin_overshoot (c : Context) (hstep : 0 < c.originStep) :
    (∀ mask : Int,
      (-c.originStep < c.origin.x → -c.originStep < (moveOrigin mask c).origin.x) ∧
      (c.origin.x < (c.size.x - (c.window.size.x : ℚ)) + c.originStep →
        (moveOrigin mask c).origin.x < (c.size.x - (c.window.size.x : ℚ)) + c.originStep) ∧
      (-c.originStep < c.origin.y → -c.originStep < (moveOrigin mask c).origin.y) ∧
      (c.origin.y < (c.size.y - (c.window.size.y : ℚ)) + c.originStep →
        (moveOrigin mask c).origin.y < (c.size.y - (c.window.size.y : ℚ)) + c.originStep)) ∧
    (c.origin = ⟨0, 0⟩ → (c.window.size.x : ℚ) ≤ c.size.x → (c.window.size.y : ℚ) ≤ c.size.y →
      ∀ masks : List Int,
        -c.originStep < (moveOriginEach masks c).origin.x ∧
        (moveOriginEach masks c).origin.x < (c.size.x - (c.window.size.x : ℚ)) + c.originStep ∧
        -c.originStep < (moveOriginEach masks c).origin.y ∧
        (moveOriginEach masks c).origin.y <
          (c.size.y - (c.window.size.y : ℚ)) + c.originStep) := by
  refine ⟨fun mask => ⟨?_, ?_, ?_, ?_⟩, ?_⟩
  · intro h; rw [moveOrigin_origin_x]; exact coord_lower _ _ _ _ _ hstep h
  · intro h; rw [moveOrigin_origin_x]; exact coord_upper _ _ _ _ _ hstep h
  · intro h; rw [moveOrigin_origin_y]; exact coord_lower _ _ _ _ _ hstep h
  · intro h; rw [moveOrigin_origin_y]; exact coord_upper _ _ _ _ _ hstep h
  · intro ho hw hh masks
    have hb : overshootBound c := by
      unfold overshootBound
      rw [ho]
      refine ⟨?_, ?_, ?_, ?_⟩ <;> simp only <;> linarith
    have h := overshootBound_moveOriginEach masks c hstep hb
    obtain ⟨f1, f2, f3⟩ := moveOriginEach_frame masks c
    unfold overshootBound at h
    rw [f1, f2, f3] at h
    exact h

/-- The witness of C10: the start state set up by `main`, panned left-and-up and then
right. -/
theorem moveOrigin_overshoot_witness :
    0 < initialContext.originStep ∧
    -initialContext.originStep < (moveOriginEach [3, 4] initialContext).origin.x ∧
    (moveOriginEach [3, 4] initialContext).origin.x <
      (initialContext.size.x - (initialContext.window.size.x : ℚ))
        + initialContext.originStep :=
  ⟨by norm_num [initialContext],
   ((moveOrigin_overshoot initialContext (by norm_num [initialContext])).2 rfl
      (by norm_num [initialContext]) (by norm_num [initialContext]) [3, 4]).1,
   ((moveOrigin_overshoot initialContext (by norm_num [initialContext])).2 rfl
      (by norm_num [initialContext]) (by norm_num [initialContext]) [3, 4]).2.1⟩

/-- C1 (counterexample): after a resize to 805x600 and with the origin at (4190, 0),
the state satisfies `originStep > 0` and the origin range invariant
(`4190 ≤ 5000 - 805 = 4195`), yet `moveOrigin(LEFT)` moves `origin.x` to 4200, which
is outside the range. -/
theorem moveOrigin_breaks_range :
    0 < offGridContext.originStep ∧ originInRange offGridContext ∧
    (moveOrigin 1 offGridContext).origin.x = 4200 ∧
    maxOriginX (moveOrigin 1 offGridContext) = 4195 ∧
    ¬ originInRange (moveOrigin 1 offGridContext) := by
  have hx : (moveOrigin 1 offGridContext).origin.x = 4200 := by
    rw [moveOrigin_origin_x]
    have h4 : Int.land 1 4 = 0 := by decide
    have h1 : Int.land 1 1 ≠ 0 := by decide
    simp only [coordWhen, h4, h1, ne_eq, not_true_eq_false, not_false_eq_true, if_true,
      if_false, stepUp, offGridContext, initialContext]
    norm_num
  have hm : maxOriginX (moveOrigin 1 offGridContext) = 4195 := by
    unfold maxOriginX
    rw [moveOrigin_size, moveOrigin_window]
    norm_num [offGridContext, initialContext]
  refine ⟨by norm_num [offGridContext, initialContext], ?_, hx, hm, ?_⟩
  · unfold originInRange maxOriginX maxOriginY
    norm_num [offGridContext, initialContext]
  · intro h
    have h2 := h.2.1
    rw [hx, hm] at h2
    norm_num at h2

/-- C1 (amended): on the step grid the origin range invariant is preserved by
panning: if `originStep > 0`, the origin coordinates and both differences
`canvasSize - viewportSize` are integer multiples of `originStep`, and
`0 ≤ origin.x ≤ max(0, canvasSize.w - viewportSize.w)` and the same for y, then
after `moveOrigin(mask)`, for every mask, the range invariant holds again and the
state is still on the grid. -/
theorem moveOrigin_preserves_range_on_grid (mask : Int) (c : Context)
    (hstep : 0 < c.originStep) (hgrid : gridAligned c) (hrange : originInRange c) :
    originInRange (moveOrigin mask c) ∧ gridAligned (moveOrigin mask c) := by
  obtain ⟨gx, gy, gw, gh⟩ := hgrid
  obtain ⟨x0, x1, y0, y1⟩ := hrange
  unfold maxOriginX at x1
  unfold maxOriginY at y1
  obtain ⟨ax, bx, cx⟩ := coord_grid (Int.land mask 1 ≠ 0) (Int.land mask 4 ≠ 0)
    (c.size.x - (c.window.size.x : ℚ)) c.originStep c.origin.x hstep gx gw x0 x1
  obtain ⟨ay, bY, cy⟩ := coord_grid (Int.land mask 2 ≠ 0) (Int.land mask 8 ≠ 0)
    (c.size.y - (c.window.size.y : ℚ)) c.originStep c.origin.y hstep gy gh y0 y1
  unfold originInRange gridAligned maxOriginX maxOriginY
  rw [moveOrigin_origin_x, moveOrigin_origin_y, moveOrigin_originStep, moveOrigin_size,
    moveOrigin_window]
  exact ⟨⟨ax, bx, ay, bY⟩, cx, cy, gw, gh⟩

/-- The witness of C1 (amended): the start state set up by `main` is on the grid and
in range. -/
theorem moveOrigin_preserves_range_on_grid_witness :
    0 < initialContext.originStep ∧ gridAligned initialContext ∧
    originInRange initialContext ∧
    originInRange (moveOrigin 5 initialContext) ∧ gridAligned (moveOrigin 5 initialContext) :=
  have hs : 0 < initialContext.originStep := by norm_num [initialContext]
  have hg : gridAligned initialContext :=
    ⟨⟨0, by norm_num [initialContext]⟩, ⟨0, by norm_num [initialContext]⟩,
     ⟨420, by norm_num [initialContext]⟩, ⟨440, by norm_num [initialContext]⟩⟩
  have hr : originInRange initialContext := by
    unfold originInRange maxOriginX maxOriginY
    norm_num [initialContext]
  ⟨hs, hg, hr, moveOrigin_preserves_range_on_grid 5 initialContext hs hg hr⟩

/-- C4: repeated LEFT pans with a fixed viewport.  A single `moveOrigin(LEFT)` adds
`originStep` to `origin.x` when `canvasSize.w - viewportSize.w > origin.x` and
otherwise leaves the whole state unchanged (so it is idempotent there); it never
changes `origin.y` or `scale`; after `n` LEFT pans
`origin.x = x0 + originStep * min(n, k)` with `k` the least natural number such that
`canvasSize.w - viewportSize.w ≤ x0 + k * originStep`, and such a `k` exists.
Scenario of `main` (viewport 800x600, canvas 5000x5000, origin (0, 0), step 10):
10 pans give `origin.x = 100` and every `n ≥ 420` gives `origin.x = 4200`. -/
theorem moveOrigin_left_repeated (c : Context) (hstep : 0 < c.originStep) :
    (c.size.x - (c.window.size.x : ℚ) > c.origin.x →
      moveOrigin 1 c = { c with origin := ⟨c.origin.x + c.originStep, c.origin.y⟩ }) ∧
    (c.size.x - (c.window.size.x : ℚ) ≤ c.origin.x →
      moveOrigin 1 c = c ∧ moveOrigin 1 (moveOrigin 1 c) = moveOrigin 1 c) ∧
    (moveOrigin 1 c).origin.y = c.origin.y ∧
    (moveOrigin 1 c).scale = c.scale ∧
    (∃ k : Nat, IsLeast {j : Nat | c.size.x - (c.window.size.x : ℚ) ≤
        c.origin.x + (j : ℚ) * c.originStep} k) ∧
    (∀ k : Nat, IsLeast {j : Nat | c.size.x - (c.window.size.x : ℚ) ≤
        c.origin.x + (j : ℚ) * c.originStep} k →
      ∀ n : Nat, ((moveOrigin 1)^[n] c).origin.x =
        c.origin.x + c.originStep * ((min n k : Nat) : ℚ)) ∧
    ((moveOrigin 1)^[10] initialContext).origin.x = 100 ∧
    (∀ n : Nat, 420 ≤ n → ((moveOrigin 1)^[n] initialContext).origin.x = 4200) := by
  have hfun : moveOrigin 1 = panLeft := funext moveOrigin_left
  have hstay : c.size.x - (c.window.size.x : ℚ) ≤ c.origin.x → moveOrigin 1 c = c := by
    intro h
    rw [moveOrigin_left, panLeft, if_neg (not_lt.mpr h)]
  refine ⟨?_, ?_, ?_, ?_, panLeft_least_exists c hstep, ?_, ?_, ?_⟩
  · intro h
    rw [moveOrigin_left, panLeft, if_pos h]
  · intro h
    exact ⟨hstay h, by rw [hstay h, hstay h]⟩
  · rw [moveOrigin_left, panLeft_eq]
  · rw [moveOrigin_left, panLeft_eq]
  · intro k hk n
    rw [hfun]
    exact panLeft_iterate_x n k c hk
  · rw [hfun, panLeft_iterate_x 10 420 initialContext initialContext_least]
    norm_num [initialContext]
  · intro n hn
    rw [hfun, panLeft_iterate_x n 420 initialContext initialContext_least, min_eq_right hn]
    norm_num [initialContext]

/-- The witness of C4: the scenario of `main`. -/
theorem moveOrigin_left_repeated_witness :
    0 < initialContext.originStep ∧
    ((moveOrigin 1)^[10] initialContext).origin.x = 100 ∧
    (∀ n : Nat, 420 ≤ n → ((moveOrigin 1)^[n] initialContext).origin.x = 4200) :=
  ⟨by norm_num [initialContext],
   (moveOrigin_left_repeated initialContext (by norm_num [initialContext])).2.2.2.2.2.2⟩

/-- C5 (counterexample): for the mask `LEFT | RIGHT = 5` on the start state of
`main`, one call `moveOrigin(5)` steps left and back and leaves `origin.x = 0`, while
applying the two active directions in the order RIGHT, LEFT leaves
`origin.x = 10`. -/
theorem moveOrigin_order_matters :
    List.Perm [4, 1] (activeDirections 5) ∧
    (moveOrigin 5 initialContext).origin.x = 0 ∧
    (moveOriginEach [4, 1] initialContext).origin.x = 10 ∧
    moveOriginEach [4, 1] initialContext ≠ moveOrigin 5 initialContext := by
  have hp : List.Perm [4, 1] (activeDirections 5) := by decide
  have h5 : (moveOrigin 5 initialContext).origin.x = 0 := by
    rw [moveOrigin_origin_x]
    have h4 : Int.land 5 4 ≠ 0 := by decide
    have h1 : Int.land 5 1 ≠ 0 := by decide
    simp only [coordWhen, h4, h1, ne_eq, not_true_eq_false, not_false_eq_true, if_true,
      if_false, stepUp, stepDown, initialContext]
    norm_num
  have he : (moveOriginEach [4, 1] initialContext).origin.x = 10 := by
    have h : moveOriginEach [4, 1] initialContext = panLeft (panRight initialContext) := by
      rw [moveOriginEach_cons, moveOriginEach_cons, moveOrigin_right, moveOrigin_left]
      rfl
    rw [h, panLeft_eq, panRight_eq]
    simp only [stepUp, stepDown, initialContext]
    norm_num
  refine ⟨hp, h5, he, ?_⟩
  intro h
  rw [h, h5] at he
  norm_num at he

/-- C5 (amended): for every state and every direction mask, the state after one call
`moveOrigin(mask)` equals the state obtained by applying the active single
directions of the mask one at a time with `moveOrigin`, in any order of those
directions that applies LEFT before RIGHT and TOP before DOWN. -/
theorem moveOrigin_each_in_axis_order (mask : Int) (c : Context) (ds : List Int)
    (hperm : ds.Perm (activeDirections mask))
    (hx : ¬ List.Sublist [4, 1] ds) (hy : ¬ List.Sublist [8, 2] ds) :
    moveOriginEach ds c = moveOrigin mask c := by
  have hall : ∀ d ∈ ds, d = 1 ∨ d = 2 ∨ d = 4 ∨ d = 8 :=
    fun d hd => activeDirections_mem mask d (hperm.subset hd)
  have hallA : ∀ d ∈ activeDirections mask, d = 1 ∨ d = 2 ∨ d = 4 ∨ d = 8 :=
    fun d hd => activeDirections_mem mask d hd
  have fx : ds.filter onXAxis = (activeDirections mask).filter onXAxis := by
    rw [activeDirections_x]
    apply axis_order_eq 1 4 (by decide)
    · have h := hperm.filter onXAxis
      rwa [activeDirections_x] at h
    · intro h
      apply hx
      rw [← h]
      exact List.filter_sublist _
  have fy : ds.filter onYAxis = (activeDirections mask).filter onYAxis := by
    rw [activeDirections_y]
    apply axis_order_eq 2 8 (by decide)
    · have h := hperm.filter onYAxis
      rwa [activeDirections_y] at h
    · intro h
      apply hy
      rw [← h]
      exact List.filter_sublist _
  rw [moveOriginEach_split ds hall, fx, fy, ← moveOriginEach_split _ hallA,
    ← moveOrigin_eq_each_active]

/-- The witness of C5 (amended): the mask `LEFT | TOP | RIGHT = 7` with its
directions applied in the order TOP, LEFT, RIGHT. -/
theorem moveOrigin_each_in_axis_order_witness :
    List.Perm [2, 1, 4] (activeDirections 7) ∧ ¬ List.Sublist [4, 1] [2, 1, 4] ∧
    ¬ List.Sublist [8, 2] [2, 1, 4] ∧
    moveOriginEach [2, 1, 4] initialContext = moveOrigin 7 initialContext :=
  ⟨by decide, by decide, by decide,
   moveOrigin_each_in_axis_order 7 initialContext [2, 1, 4] (by decide) (by decide)
     (by decide)⟩

/-- C3 (counterexample): in the program's binary32 arithmetic the closed form fails
on the state `main` sets up (scale 1, `scaleStep` the stored value of `0.1`): thirty
`setScale(+1)` calls leave the scale at `16777209 / 4194304`, below 4, while
`min(s + 30 * scaleStep, 4.0)` is 4; the thirty-first call still raises the scale,
to 4. -/
theorem setScaleF32_closed_form_fails :
    (1 / 10 ≤ initialContext.scale ∧ initialContext.scale ≤ 4 ∧
      0 < initialContext.scaleStep) ∧
    ((setScaleF32 1)^[30] initialContext).scale = 16777209 / 4194304 ∧
    min (initialContext.scale + ((30 : Nat) : ℚ) * initialContext.scaleStep) 4 = 4 ∧
    ((setScaleF32 1)^[30] initialContext).scale ≠
      min (initialContext.scale + ((30 : Nat) : ℚ) * initialContext.scaleStep) 4 ∧
    ((setScaleF32 1)^[31] initialContext).scale = 4 := by
  have hc : scaleInRangeF32 initialContext :=
    ⟨roundF32_one, by norm_num [initialContext], by norm_num [initialContext]⟩
  have hpos : 0 < initialContext.scaleStep := by
    show 0 < floatTenth
    unfold floatTenth
    norm_num
  have h30 := (setScaleF32_up_iterate 30 initialContext hc roundF32_floatTenth hpos).1
  have h31 := (setScaleF32_up_iterate 31 initialContext hc roundF32_floatTenth hpos).1
  have e30 : ((setScaleF32 1)^[30] initialContext).scale = 16777209 / 4194304 :=
    h30.trans zoomInF32_chain.1
  have e31 : ((setScaleF32 1)^[31] initialContext).scale = 4 := h31.trans zoomInF32_chain.2
  have hmin : min (initialContext.scale + ((30 : Nat) : ℚ) * initialContext.scaleStep) 4 = 4 := by
    apply min_eq_right
    show 4 ≤ (1 : ℚ) + ((30 : Nat) : ℚ) * floatTenth
    unfold floatTenth
    norm_num
  refine ⟨⟨hc.2.1, hc.2.2, hpos⟩, e30, hmin, ?_, e31⟩
  rw [e30, hmin]
  norm_num

/-- C3 (amended): in the program's binary32 arithmetic, from a binary32 scale in
`[0.1, 4.0]` with a binary32 `scaleStep > 0`, along every finite sequence of
`setScale(+1)` / `setScale(-1)` calls the scale stays in `[0.1, 4.0]` after every
call, a `setScale(+1)` never lowers it and a `setScale(-1)` never raises it; `n`
consecutive `setScale(-1)` calls give the `n`-fold iterate of
`x ↦ max(fl(x - scaleStep), fl(0.1))` and `n` consecutive `setScale(+1)` calls the
`n`-fold iterate of `x ↦ min(fl(x + scaleStep), 4.0)`, with `fl` the rounding to the
nearest binary32 number.  From scale 1 with the stored step `fl(0.1)`, nine
`setScale(-1)` calls give `fl(0.1)` and the tenth changes nothing. -/
theorem setScaleF32_sequences (c : Context) (hrep : roundF32 c.scale = c.scale)
    (hlo : 1 / 10 ≤ c.scale) (hhi : c.scale ≤ 4)
    (hsrep : roundF32 c.scaleStep = c.scaleStep) (hstep : 0 < c.scaleStep) :
    (∀ ms : List Int, (∀ m ∈ ms, m = 1 ∨ m = -1) →
      1 / 10 ≤ (setScaleF32Each ms c).scale ∧ (setScaleF32Each ms c).scale ≤ 4 ∧
      (setScaleF32Each ms c).scale ≤ (setScaleF32 1 (setScaleF32Each ms c)).scale ∧
      (setScaleF32 (-1) (setScaleF32Each ms c)).scale ≤ (setScaleF32Each ms c).scale) ∧
    (∀ n : Nat, ((setScaleF32 (-1))^[n] c).scale =
      (fun x => max (roundF32 (x - c.scaleStep)) (roundF32 doubleTenth))^[n] c.scale) ∧
    (∀ n : Nat, ((setScaleF32 1)^[n] c).scale =
      (fun x => min (roundF32 (x + c.scaleStep)) 4)^[n] c.scale) ∧
    (c.scale = 1 → c.scaleStep = floatTenth →
      ((setScaleF32 (-1))^[9] c).scale = floatTenth ∧
      (setScaleF32 (-1))^[10] c = (setScaleF32 (-1))^[9] c) := by
  have hc : scaleInRangeF32 c := ⟨hrep, hlo, hhi⟩
  have hout : (fun x => max (roundF32 (x - c.scaleStep)) (roundF32 doubleTenth)) =
      zoomOutF32 c.scaleStep := by
    funext x
    rw [roundF32_doubleTenth]
    rfl
  have hin : (fun x => min (roundF32 (x + c.scaleStep)) 4) = zoomInF32 c.scaleStep := rfl
  refine ⟨?_, fun n => ?_, fun n => ?_, ?_⟩
  · intro ms hms
    obtain ⟨⟨r1, r2, r3⟩, r4⟩ := setScaleF32Each_keeps ms hms c hc hsrep hstep
    have hc2 : scaleInRangeF32 (setScaleF32Each ms c) := ⟨r1, r2, r3⟩
    have hs2 : 0 < (setScaleF32Each ms c).scaleStep := by rw [r4]; exact hstep
    refine ⟨r2, r3, ?_, ?_⟩
    · rw [setScaleF32_up _ hc2 (by rw [r4]; exact hsrep) hs2]
      exact (zoomInF32_spec _ _ r1 r2 r3 hs2).1
    · rw [setScaleF32_down _ hc2 (by rw [r4]; exact hsrep) hs2]
      exact (zoomOutF32_spec _ _ r1 r2 r3 hs2).1
  · rw [hout]
    exact (setScaleF32_down_iterate n c hc hsrep hstep).1
  · rw [hin]
    exact (setScaleF32_up_iterate n c hc hsrep hstep).1
  · intro h1 h2
    obtain ⟨d1, d2, d3⟩ := setScaleF32_down_iterate 9 c hc hsrep hstep
    have h9 : ((setScaleF32 (-1))^[9] c).scale = floatTenth := by
      rw [d1, h1, h2]
      exact zoomOutF32_chain
    refine ⟨h9, ?_⟩
    rw [Function.iterate_succ_apply']
    have hs : (setScaleF32 (-1) ((setScaleF32 (-1))^[9] c)).scale =
        ((setScaleF32 (-1))^[9] c).scale := by
      rw [setScaleF32_down _ d2 (by rw [d3]; exact hsrep) (by rw [d3]; exact hstep), d3, h9,
        h2]
      exact zoomOutF32_floatTenth
    exact setScaleF32_fixed _ _ hs

/-- The witness of C3 (amended): the start state set up by `main` (scale 1, step the
stored value of `0.1`), zoomed out nine and ten times, and zoomed in then out. -/
theorem setScaleF32_sequences_witness :
    (roundF32 initialContext.scale = initialContext.scale ∧
      1 / 10 ≤ initialContext.scale ∧ initialContext.scale ≤ 4 ∧
      roundF32 initialContext.scaleStep = initialContext.scaleStep ∧
      0 < initialContext.scaleStep) ∧
    ((setScaleF32 (-1))^[9] initialContext).scale = floatTenth ∧
    (setScaleF32 (-1))^[10] initialContext = (setScaleF32 (-1))^[9] initialContext ∧
    (setScaleF32Each [1, -1] initialContext).scale ≤ 4 :=
  have h0 : roundF32 initialContext.scale = initialContext.scale := roundF32_one
  have h1 : 1 / 10 ≤ initialContext.scale := by norm_num [initialContext]
  have h2 : initialContext.scale ≤ 4 := by norm_num [initialContext]
  have h3 : roundF32 initialContext.scaleStep = initialContext.scaleStep := roundF32_floatTenth
  have h4 : 0 < initialContext.scaleStep := by
    show 0 < floatTenth
    unfold floatTenth
    norm_num
  ⟨⟨h0, h1, h2, h3, h4⟩,
   ((setScaleF32_sequences initialContext h0 h1 h2 h3 h4).2.2.2 rfl rfl).1,
   ((setScaleF32_sequences initialContext h0 h1 h2 h3 h4).2.2.2 rfl rfl).2,
   ((setScaleF32_sequences initialContext h0 h1 h2 h3 h4).1 [1, -1] (by decide)).2.1⟩

end Area
